import Mathlib

/-!
Verification development for the finsolvz-backend repository.

This file shallowly embeds the components that the specification's claims
are about: the report read-model assembler (the two MongoDB aggregation
pipelines in internal/repository/report_mongo.go), the report response
conversion (internal/app/report/model.go), the report service
(internal/app/report/service.go), the company service and repository
(company service file, internal/repository/company_mongo.go), the dual-mode
idOrName dispatch (company and reporttype handlers), the in-memory TTL
cache (internal/utils/cache.go) and the fixed-window rate limiter
(internal/platform/http/middleware/request_limit_middleware.go).

Object identifiers are modelled as natural numbers; `oidHex` stands for
`primitive.ObjectID.Hex()`.  BSON documents are ordered association lists
of string keys and `BVal` values.  Go `interface\x7b\x7d` payloads are
`Option BVal` with `none` standing for the nil interface.
-/

/-- Object identifiers (`primitive.ObjectID`), abstracted to naturals. -/
abbrev OId := Nat

/-- BSON values, as far as the embedded code needs them. -/
inductive BVal where
  | null
  | oid (id : OId)
  | str (s : String)
  | num (n : Int)
  | time (t : Int)
  | arr (elems : List BVal)
  | doc (fields : List (String × BVal))

/-- A BSON document: an ordered list of fields. -/
abbrev BDoc := List (String × BVal)

mutual

/-- Structural equality test on BSON values (MongoDB value equality as used
by `$lookup` and `$match` on the identifier values this code compares). -/
def BVal.beq : BVal → BVal → Bool
  | .null, .null => true
  | .oid a, .oid b => a == b
  | .str a, .str b => a == b
  | .num a, .num b => a == b
  | .time a, .time b => a == b
  | .arr a, .arr b => beqElems a b
  | .doc a, .doc b => beqFields a b
  | _, _ => false

/-- Elementwise equality of BSON arrays. -/
def beqElems : List BVal → List BVal → Bool
  | [], [] => true
  | a :: as, b :: bs => BVal.beq a b && beqElems as bs
  | _, _ => false

/-- Fieldwise equality of BSON documents. -/
def beqFields : List (String × BVal) → List (String × BVal) → Bool
  | [], [] => true
  | (k1, v1) :: as, (k2, v2) :: bs => k1 == k2 && BVal.beq v1 v2 && beqFields as bs
  | _, _ => false

end

/-- Read a field of a document (first occurrence of the key). -/
def getF (d : BDoc) (k : String) : Option BVal :=
  (d.find? (fun kv => kv.1 == k)).map (·.2)

/-- Write a field of a document: replaced in place when the key exists
(as MongoDB's `$lookup` does for its `as` field), appended otherwise. -/
def setF (d : BDoc) (k : String) (v : BVal) : BDoc :=
  if d.any (fun kv => kv.1 == k) then
    d.map (fun kv => if kv.1 == k then (k, v) else kv)
  else
    d ++ [(k, v)]

/-- Remove a field from a document. -/
def removeF (d : BDoc) (k : String) : BDoc :=
  d.filter (fun kv => !(kv.1 == k))

/-- Go `strings.TrimSpace`: drop leading and trailing whitespace.
Implemented over the character list so that it evaluates. -/
def trimSpace (s : String) : String :=
  ⟨((s.data.dropWhile Char.isWhitespace).reverse.dropWhile Char.isWhitespace).reverse⟩

/-! ## Entities and their BSON encodings

The structures mirror the Go domain structs (internal/domain); the
encoders list fields in struct order with the bson tags' names, honouring
`omitempty` on optional fields. -/

/-- domain.User (internal/domain/user.go). -/
structure UserE where
  id : OId
  name : String
  email : String
  password : String
  role : String
  company : List OId
  createdAt : Int
  updatedAt : Int
  resetPasswordToken : Option String := none
  resetPasswordExpires : Option Int := none

/-- domain.Company (internal/domain, company entity). -/
structure CompanyE where
  id : OId
  name : String
  profilePicture : Option String
  user : List OId
  createdAt : Int
  updatedAt : Int

/-- domain.ReportType (internal/domain, report type entity). -/
structure ReportTypeE where
  id : OId
  name : String

/-- domain.Report, raw (reference-only) shape.  The live write path
(report service CreateReport / UpdateReport) stores `year` as a trimmed
string; the separate integer declaration of the same entity is captured
by `ReportDeclP13` below. -/
structure ReportE where
  id : OId
  reportName : String
  reportType : OId
  year : String
  company : OId
  currency : Option String
  createdBy : OId
  userAccess : List OId
  reportData : BVal
  createdAt : Int
  updatedAt : Int

/-- domain.Report as DECLARED in internal/domain (src/unnamed/part_013):
the `Year` field is an `int` there, although the request/response layer
types it as a string.  Kept to witness the year-typing inconsistency. -/
structure ReportDeclP13 where
  id : OId
  reportName : String
  reportType : OId
  year : Int
  company : OId
  currency : Option String
  createdBy : OId
  userAccess : List OId
  reportData : Option BVal
  createdAt : Int
  updatedAt : Int

/-- BSON encoding of a user document (bson tags of domain.User, in struct
order; resetPasswordToken/resetPasswordExpires carry `omitempty`). -/
def encUser (u : UserE) : BDoc :=
  [("_id", .oid u.id), ("name", .str u.name), ("email", .str u.email),
   ("password", .str u.password), ("role", .str u.role),
   ("company", .arr (u.company.map BVal.oid)),
   ("createdAt", .time u.createdAt), ("updatedAt", .time u.updatedAt)]
  ++ (match u.resetPasswordToken with
      | some t => [("resetPasswordToken", .str t)]
      | none => [])
  ++ (match u.resetPasswordExpires with
      | some t => [("resetPasswordExpires", .time t)]
      | none => [])

/-- BSON encoding of a company document (`profilePicture` is omitempty). -/
def encCompany (c : CompanyE) : BDoc :=
  [("_id", .oid c.id), ("name", .str c.name)]
  ++ (match c.profilePicture with
      | some p => [("profilePicture", .str p)]
      | none => [])
  ++ [("user", .arr (c.user.map BVal.oid)),
      ("createdAt", .time c.createdAt), ("updatedAt", .time c.updatedAt)]

/-- BSON encoding of a report type document. -/
def encReportType (t : ReportTypeE) : BDoc :=
  [("_id", .oid t.id), ("name", .str t.name)]

/-- BSON encoding of a raw report document (`currency` is omitempty). -/
def encReport (r : ReportE) : BDoc :=
  [("_id", .oid r.id), ("reportName", .str r.reportName),
   ("reportType", .oid r.reportType), ("year", .str r.year),
   ("company", .oid r.company)]
  ++ (match r.currency with
      | some c => [("currency", .str c)]
      | none => [])
  ++ [("createdBy", .oid r.createdBy),
      ("userAccess", .arr (r.userAccess.map BVal.oid)),
      ("reportData", r.reportData),
      ("createdAt", .time r.createdAt), ("updatedAt", .time r.updatedAt)]

/-- The four collections of the database. -/
structure DB where
  users : List UserE
  companies : List CompanyE
  reporttypes : List ReportTypeE
  reports : List ReportE

/-! ## Aggregation pipeline stages

Faithful models of the stages used by the two versions of
`getPopulationPipeline` in internal/repository/report_mongo.go:
`$lookup` (with and without a `$project` sub-pipeline), `$unwind` with
`preserveNullAndEmptyArrays`, `$arrayElemAt`, `$map`, and the final
`$project`.  The identifier values this pipeline joins on are scalars on
the foreign side (`_id`) and scalars or arrays on the local side. -/

/-- MongoDB `$lookup` equality between the local field value and a foreign
document's `foreignField` value.  A missing local field is treated as
null; a local array matches when any element equals the foreign value
(the `userAccess` case). -/
def lookupEq (localVal : BVal) (foreignVal : Option BVal) : Bool :=
  let fv := foreignVal.getD .null
  match localVal with
  | .arr xs => xs.any (fun x => BVal.beq x fv)
  | v => BVal.beq v fv

/-- One `$lookup` stage applied to one document: replaces `asField` with
the array of matching foreign documents, each passed through the
sub-pipeline `sub` (the identity for the unwind-based pipeline version,
a `$project` for the optimized version). -/
def lookupAs (foreign : List BDoc) (localField foreignField asField : String)
    (sub : BDoc → BDoc) (d : BDoc) : BDoc :=
  let lv := (getF d localField).getD .null
  let found := (foreign.filter (fun f => lookupEq lv (getF f foreignField))).map
    (fun f => BVal.doc (sub f))
  setF d asField (.arr found)

/-- `$unwind` with `preserveNullAndEmptyArrays: true` on one document:
one output per array element; an empty array drops the field but keeps
the document; null, missing and non-array values keep the document. -/
def unwindPreserve (k : String) (d : BDoc) : List BDoc :=
  match getF d k with
  | some (.arr []) => [removeF d k]
  | some (.arr xs) => xs.map (fun x => setF d k x)
  | _ => [d]

/-- Inclusion `$project` on a document: keeps exactly the listed keys, in
the document's own field order (MongoDB inclusion-projection order). -/
def projInc (keys : List String) (d : BDoc) : BDoc :=
  d.filter (fun kv => keys.contains kv.1)

/-- `$arrayElemAt [x, 0]`: first element, or a missing value when the
array is empty (or the operand is not an array, unreachable here). -/
def arrayElemAt0 (v : BVal) : Option BVal :=
  match v with
  | .arr (x :: _) => some x
  | _ => none

/-- Projection keys for the embedded company. -/
def companyProjKeys : List String :=
  ["_id", "name", "profilePicture", "createdAt", "updatedAt"]

/-- Projection keys for the embedded report type. -/
def reportTypeProjKeys : List String := ["_id", "name"]

/-- Projection keys for embedded users (creator and user-access entries):
the password is not among them. -/
def userProjKeys : List String :=
  ["_id", "name", "email", "role", "createdAt", "updatedAt"]

/-- Top-level report fields kept by both final `$project` stages. -/
def reportScalarKeys : List String :=
  ["_id", "reportName", "year", "currency", "reportData", "createdAt", "updatedAt"]

/-- Nested inclusion projection (the `"company": \x7b"_id": 1, ...\x7d` form of
the unwind-based pipeline's final `$project`): after the preceding
`$unwind` the value is a document whenever the field is present. -/
def projSub (keys : List String) (v : BVal) : Option BVal :=
  match v with
  | .doc f => some (.doc (projInc keys f))
  | _ => none

/-- The `$map` body of the unwind-based pipeline's final `$project` for
`userAccess`: a literal document in the spec's key order whose entries are
`$$user.<key>`; entries whose source field is missing are omitted. -/
def mapUserDoc (v : BVal) : BVal :=
  .doc (userProjKeys.filterMap (fun k =>
    match v with
    | .doc f => (getF f k).map (fun x => (k, x))
    | _ => none))

/-- Final `$project` of the unwind-based (first) version of
`getPopulationPipeline`: inclusion of the scalar report fields, nested
inclusion for company / reportType / createdBy, `$map` for userAccess. -/
def projectUnwindFinal (d : BDoc) : BDoc :=
  d.filterMap (fun kv =>
    if reportScalarKeys.contains kv.1 then some kv
    else if kv.1 == "company" then
      (projSub companyProjKeys kv.2).map (fun v => ("company", v))
    else if kv.1 == "reportType" then
      (projSub reportTypeProjKeys kv.2).map (fun v => ("reportType", v))
    else if kv.1 == "createdBy" then
      (projSub userProjKeys kv.2).map (fun v => ("createdBy", v))
    else if kv.1 == "userAccess" then
      match kv.2 with
      | .arr xs => some ("userAccess", .arr (xs.map mapUserDoc))
      | _ => none
    else none)

/-- Final `$project` of the optimized (second) version of
`getPopulationPipeline`: inclusion of the scalar report fields,
`$arrayElemAt 0` flattening for company / reportType / createdBy,
`userAccess` kept as the looked-up array. -/
def projectOptimizedFinal (d : BDoc) : BDoc :=
  d.filterMap (fun kv =>
    if reportScalarKeys.contains kv.1 then some kv
    else if kv.1 == "company" then
      (arrayElemAt0 kv.2).map (fun v => ("company", v))
    else if kv.1 == "reportType" then
      (arrayElemAt0 kv.2).map (fun v => ("reportType", v))
    else if kv.1 == "createdBy" then
      (arrayElemAt0 kv.2).map (fun v => ("createdBy", v))
    else if kv.1 == "userAccess" then some kv
    else none)

/-- First version of `getPopulationPipeline`
(report_mongo.go, the `$unwind`-based variant): four `$lookup`s, three
`$unwind preserveNullAndEmptyArrays`, one final nested `$project`. -/
def getPopulationPipelineUnwind (db : DB) (docs : List BDoc) : List BDoc :=
  let s1 := docs.map (lookupAs (db.companies.map encCompany) "company" "_id" "company" id)
  let s2 := s1.flatMap (unwindPreserve "company")
  let s3 := s2.map (lookupAs (db.reporttypes.map encReportType) "reportType" "_id" "reportType" id)
  let s4 := s3.flatMap (unwindPreserve "reportType")
  let s5 := s4.map (lookupAs (db.users.map encUser) "createdBy" "_id" "createdBy" id)
  let s6 := s5.flatMap (unwindPreserve "createdBy")
  let s7 := s6.map (lookupAs (db.users.map encUser) "userAccess" "_id" "userAccess" id)
  s7.map projectUnwindFinal

/-- Second version of `getPopulationPipeline`
(report_mongo.go, the optimized variant): four `$lookup`s with `$project`
sub-pipelines, one final `$project` with `$arrayElemAt` flattening. -/
def getPopulationPipelineOptimized (db : DB) (docs : List BDoc) : List BDoc :=
  let s1 := docs.map (lookupAs (db.companies.map encCompany) "company" "_id" "company"
    (projInc companyProjKeys))
  let s2 := s1.map (lookupAs (db.reporttypes.map encReportType) "reportType" "_id" "reportType"
    (projInc reportTypeProjKeys))
  let s3 := s2.map (lookupAs (db.users.map encUser) "createdBy" "_id" "createdBy"
    (projInc userProjKeys))
  let s4 := s3.map (lookupAs (db.users.map encUser) "userAccess" "_id" "userAccess"
    (projInc userProjKeys))
  s4.map projectOptimizedFinal

/-! ## Match predicates and the expected populated shape -/

/-- The match predicates the repository prepends to the population
pipeline (report_mongo.go GetByID / GetByName / GetByCompany /
GetByCompanies / GetByReportType / GetByUserAccess / GetByCreatedBy /
GetAll). -/
inductive ReportFilter where
  | byId (i : OId)
  | byName (nm : String)
  | byCompany (c : OId)
  | byCompanies (cs : List OId)
  | byReportType (t : OId)
  | byUserAccess (u : OId)
  | byCreatedBy (u : OId)
  | all

/-- MongoDB equality `$match` on one field: equal value, or, for an array
field, the array containing the value (the `userAccess` case). -/
def fieldMatches (d : BDoc) (k : String) (v : BVal) : Bool :=
  match getF d k with
  | some (.arr xs) => BVal.beq (.arr xs) v || xs.any (fun x => BVal.beq x v)
  | some w => BVal.beq w v
  | none => BVal.beq .null v

/-- MongoDB `$in` `$match` on one field. -/
def fieldIn (d : BDoc) (k : String) (vs : List BVal) : Bool :=
  match getF d k with
  | some (.arr xs) =>
    xs.any (fun x => vs.any (fun v => BVal.beq x v))
      || vs.any (fun v => BVal.beq (.arr xs) v)
  | some w => vs.any (fun v => BVal.beq w v)
  | none => vs.any (fun v => BVal.beq .null v)

/-- The `$match` stage predicate for each repository query. -/
def matchFilter : ReportFilter → BDoc → Bool
  | .byId i, d => fieldMatches d "_id" (.oid i)
  | .byName nm, d => fieldMatches d "reportName" (.str nm)
  | .byCompany c, d => fieldMatches d "company" (.oid c)
  | .byCompanies cs, d => fieldIn d "company" (cs.map BVal.oid)
  | .byReportType t, d => fieldMatches d "reportType" (.oid t)
  | .byUserAccess u, d => fieldMatches d "userAccess" (.oid u)
  | .byCreatedBy u, d => fieldMatches d "createdBy" (.oid u)
  | .all, _ => true

/-- The same predicates read back on the typed raw report. -/
def reportMatches : ReportFilter → ReportE → Bool
  | .byId i, r => r.id == i
  | .byName nm, r => r.reportName == nm
  | .byCompany c, r => r.company == c
  | .byCompanies cs, r => cs.any (fun c => r.company == c)
  | .byReportType t, r => r.reportType == t
  | .byUserAccess u, r => r.userAccess.any (fun a => a == u)
  | .byCreatedBy u, r => r.createdBy == u
  | .all, _ => true

/-- Run one of the two pipeline versions over the matched raw reports, as
each repository query does (`$match` then population). -/
def runPopulationUnwind (db : DB) (f : ReportFilter) : List BDoc :=
  getPopulationPipelineUnwind db ((db.reports.map encReport).filter (matchFilter f))

/-- The optimized variant of `runPopulationUnwind`. -/
def runPopulationOptimized (db : DB) (f : ReportFilter) : List BDoc :=
  getPopulationPipelineOptimized db ((db.reports.map encReport).filter (matchFilter f))

/-- Lookup of an entity by identifier in a collection. -/
def findById {α : Type} (l : List α) (key : α → OId) (i : OId) : Option α :=
  l.find? (fun a => key a == i)

/-- The projected company object the spec describes: id, name, profile
picture and timestamps. -/
def specCompanyDoc (c : CompanyE) : BDoc :=
  [("_id", .oid c.id), ("name", .str c.name)]
  ++ (match c.profilePicture with
      | some p => [("profilePicture", .str p)]
      | none => [])
  ++ [("createdAt", .time c.createdAt), ("updatedAt", .time c.updatedAt)]

/-- The projected report type object: id and name only. -/
def specReportTypeDoc (t : ReportTypeE) : BDoc :=
  [("_id", .oid t.id), ("name", .str t.name)]

/-- The projected user object: id, name, email, role and timestamps,
password excluded. -/
def specUserDoc (u : UserE) : BDoc :=
  [("_id", .oid u.id), ("name", .str u.name), ("email", .str u.email),
   ("role", .str u.role),
   ("createdAt", .time u.createdAt), ("updatedAt", .time u.updatedAt)]

/-- An optional document field. -/
def optField (k : String) (v : Option BVal) : BDoc :=
  match v with
  | some x => [(k, x)]
  | none => []

/-- The expected populated representation of one report against a
database state: every single reference is either the full projected
embedded object or absent (dangling reference), and userAccess is the
projected list of the referenced users present in the collection. -/
def populatedDocSpec (db : DB) (r : ReportE) : BDoc :=
  [("_id", .oid r.id), ("reportName", .str r.reportName)]
  ++ optField "reportType"
      ((findById db.reporttypes (fun t => t.id) r.reportType).map
        (fun t => .doc (specReportTypeDoc t)))
  ++ [("year", .str r.year)]
  ++ optField "company"
      ((findById db.companies (fun c => c.id) r.company).map
        (fun c => .doc (specCompanyDoc c)))
  ++ optField "currency" (r.currency.map .str)
  ++ optField "createdBy"
      ((findById db.users (fun u => u.id) r.createdBy).map
        (fun u => .doc (specUserDoc u)))
  ++ [("userAccess", .arr
        ((db.users.filter (fun u => r.userAccess.any (fun a => a == u.id))).map
          (fun u => .doc (specUserDoc u)))),
      ("reportData", r.reportData),
      ("createdAt", .time r.createdAt), ("updatedAt", .time r.updatedAt)]

/-- Well-formedness of a database state: document identifiers are unique
within each collection, as MongoDB's `_id` index guarantees. -/
def DBWF (db : DB) : Prop :=
  (db.users.map (fun u => u.id)).Nodup
  ∧ (db.companies.map (fun c => c.id)).Nodup
  ∧ (db.reporttypes.map (fun t => t.id)).Nodup

/-! ## Decoding pipeline output into the Go structs (cursor.All) -/

/-- Decode a string field; a missing or differently-typed field leaves the
Go zero value. -/
def decStr (v : Option BVal) : String :=
  match v with
  | some (.str s) => s
  | _ => ""

/-- Decode an object-identifier field. -/
def decOId (v : Option BVal) : OId :=
  match v with
  | some (.oid i) => i
  | _ => 0

/-- Decode a timestamp field. -/
def decTime (v : Option BVal) : Int :=
  match v with
  | some (.time t) => t
  | _ => 0

/-- Decode an optional string field (Go pointer: nil when null/missing). -/
def decOptStr (v : Option BVal) : Option String :=
  match v with
  | some (.str s) => some s
  | _ => none

/-- Decode an optional timestamp field. -/
def decOptTime (v : Option BVal) : Option Int :=
  match v with
  | some (.time t) => some t
  | _ => none

/-- Decode an array of object identifiers. -/
def decOIdList (v : Option BVal) : List OId :=
  match v with
  | some (.arr xs) => xs.filterMap (fun x => match x with | .oid i => some i | _ => none)
  | _ => []

/-- Decode a BSON value into a Go `interface\x7b\x7d`: BSON null becomes the
nil interface, which this model writes as `none`. -/
def decAny (v : Option BVal) : Option BVal :=
  match v with
  | some .null => none
  | some x => some x
  | none => none

/-- Decode a user document into domain.User. -/
def decodeUserDoc (d : BDoc) : UserE :=
  { id := decOId (getF d "_id"), name := decStr (getF d "name"),
    email := decStr (getF d "email"), password := decStr (getF d "password"),
    role := decStr (getF d "role"), company := decOIdList (getF d "company"),
    createdAt := decTime (getF d "createdAt"), updatedAt := decTime (getF d "updatedAt"),
    resetPasswordToken := decOptStr (getF d "resetPasswordToken"),
    resetPasswordExpires := decOptTime (getF d "resetPasswordExpires") }

/-- Decode a company document into domain.Company. -/
def decodeCompanyDoc (d : BDoc) : CompanyE :=
  { id := decOId (getF d "_id"), name := decStr (getF d "name"),
    profilePicture := decOptStr (getF d "profilePicture"),
    user := decOIdList (getF d "user"),
    createdAt := decTime (getF d "createdAt"), updatedAt := decTime (getF d "updatedAt") }

/-- Decode a report type document into domain.ReportType. -/
def decodeReportTypeDoc (d : BDoc) : ReportTypeE :=
  { id := decOId (getF d "_id"), name := decStr (getF d "name") }

/-- domain.PopulatedReport: the joined read representation, with pointer
fields `none` when the reference dangled and the `userAccess` slice `none`
when absent (Go nil slice). -/
structure PopulatedReport where
  id : OId
  reportName : String
  reportType : Option ReportTypeE
  year : String
  company : Option CompanyE
  currency : Option String
  createdBy : Option UserE
  userAccess : Option (List UserE)
  reportData : Option BVal
  createdAt : Int
  updatedAt : Int

/-- Decode one pipeline output document into domain.PopulatedReport, as
the driver's cursor decoding does: embedded documents into pointer
fields (nil on null/missing), arrays of documents into the slice. -/
def decodePopulated (d : BDoc) : PopulatedReport :=
  { id := decOId (getF d "_id"), reportName := decStr (getF d "reportName"),
    reportType := match getF d "reportType" with
      | some (.doc f) => some (decodeReportTypeDoc f)
      | _ => none,
    year := decStr (getF d "year"),
    company := match getF d "company" with
      | some (.doc f) => some (decodeCompanyDoc f)
      | _ => none,
    currency := decOptStr (getF d "currency"),
    createdBy := match getF d "createdBy" with
      | some (.doc f) => some (decodeUserDoc f)
      | _ => none,
    userAccess := match getF d "userAccess" with
      | some (.arr xs) => some (xs.filterMap (fun x =>
          match x with | .doc f => some (decodeUserDoc f) | _ => none))
      | _ => none,
    reportData := decAny (getF d "reportData"),
    createdAt := decTime (getF d "createdAt"), updatedAt := decTime (getF d "updatedAt") }

/-! ## Response layer (internal/app/report/model.go) -/

/-- ReportTypeInfo response DTO. -/
structure ReportTypeInfo where
  id : OId
  name : String

/-- CompanyInfo response DTO. -/
structure CompanyInfo where
  id : OId
  name : String
  profilePicture : Option String
  createdAt : Int
  updatedAt : Int

/-- UserInfo response DTO (no password field). -/
structure UserInfo where
  id : OId
  name : String
  email : String
  role : String
  createdAt : Int
  updatedAt : Int

/-- ReportResponse DTO; `year` is a string, `userAccess` a list (never a
nil slice after conversion), `reportData` the wire payload. -/
structure ReportResponse where
  id : OId
  reportName : String
  reportType : Option ReportTypeInfo
  year : String
  company : Option CompanyInfo
  currency : Option String
  createdBy : Option UserInfo
  userAccess : List UserInfo
  reportData : BVal
  createdAt : Int
  updatedAt : Int

/-- Conversion of an embedded user to UserInfo. -/
def toUserInfo (u : UserE) : UserInfo :=
  { id := u.id, name := u.name, email := u.email, role := u.role,
    createdAt := u.createdAt, updatedAt := u.updatedAt }

/-- ToReportResponse (model.go): nil reportData becomes an empty array,
nil userAccess becomes an empty list, absent reportType / company /
createdBy stay nil. -/
def ToReportResponse (pr : PopulatedReport) : ReportResponse :=
  { id := pr.id, reportName := pr.reportName,
    year := pr.year, currency := pr.currency,
    reportData := pr.reportData.getD (.arr []),
    createdAt := pr.createdAt, updatedAt := pr.updatedAt,
    reportType := pr.reportType.map (fun t => { id := t.id, name := t.name }),
    company := pr.company.map (fun c =>
      { id := c.id, name := c.name, profilePicture := c.profilePicture,
        createdAt := c.createdAt, updatedAt := c.updatedAt }),
    createdBy := pr.createdBy.map toUserInfo,
    userAccess := (pr.userAccess.getD []).map toUserInfo }

/-- ToReportResponseArray (model.go). -/
def ToReportResponseArray (prs : List PopulatedReport) : List ReportResponse :=
  prs.map ToReportResponse

/-- Stand-in for `primitive.ObjectID.Hex()`. -/
def oidHex (i : OId) : String := toString i

/-- JSON rendering of UserInfo (json tags of model.go). -/
def userInfoJson (u : UserInfo) : BDoc :=
  [("_id", .str (oidHex u.id)), ("name", .str u.name), ("email", .str u.email),
   ("role", .str u.role), ("createdAt", .time u.createdAt), ("updatedAt", .time u.updatedAt)]

/-- JSON rendering of CompanyInfo. -/
def companyInfoJson (c : CompanyInfo) : BDoc :=
  [("_id", .str (oidHex c.id)), ("name", .str c.name),
   ("profilePicture", match c.profilePicture with | some p => .str p | none => .null),
   ("createdAt", .time c.createdAt), ("updatedAt", .time c.updatedAt)]

/-- JSON rendering of ReportTypeInfo. -/
def reportTypeInfoJson (t : ReportTypeInfo) : BDoc :=
  [("_id", .str (oidHex t.id)), ("name", .str t.name)]

/-- JSON rendering of an optional embedded object: Go nil pointers render
as JSON null. -/
def optObjJson {α : Type} (f : α → BDoc) (o : Option α) : BVal :=
  match o with
  | some a => .doc (f a)
  | none => .null

/-- JSON rendering of an optional string. -/
def optStrJson (o : Option String) : BVal :=
  match o with
  | some s => .str s
  | none => .null

/-- JSON rendering of a whole ReportResponse, field for field in the json
tag order of model.go. -/
def reportResponseJson (r : ReportResponse) : BDoc :=
  [("_id", .str (oidHex r.id)), ("reportName", .str r.reportName),
   ("reportType", optObjJson reportTypeInfoJson r.reportType),
   ("year", .str r.year),
   ("company", optObjJson companyInfoJson r.company),
   ("currency", optStrJson r.currency),
   ("createdBy", optObjJson userInfoJson r.createdBy),
   ("userAccess", .arr (r.userAccess.map (fun u => .doc (userInfoJson u)))),
   ("reportData", r.reportData),
   ("createdAt", .time r.createdAt), ("updatedAt", .time r.updatedAt)]

/-! ## Services -/

/-- The structured application error (code, message, HTTP status). -/
structure AppError where
  code : String
  message : String
  status : Nat
deriving DecidableEq, Repr

/-- CreateReportRequest (model.go) after the handler's decode and the
service's ObjectIDFromHex parsing of the four reference fields; the
INVALID_*_ID rejection paths for malformed hex are upstream of the
behavior the claims are about, so identifiers appear here already
parsed.  `year` is a required string in the request DTO. -/
structure CreateReportRequest where
  reportName : String
  reportType : OId
  year : String
  company : OId
  currency : Option String
  createBy : OId
  userAccess : List OId
  reportData : Option BVal

/-- The `validate:"required"` rule on a string field: the zero value is
rejected. -/
def validateRequiredString (s : String) : Bool := !(s == "")

/-- reportMongoRepository.GetByID: one aggregation of match-by-id plus
the population pipeline; empty result is REPORT_NOT_FOUND, otherwise the
first document is returned. -/
def reportRepoGetByID (db : DB) (i : OId) : Except AppError BDoc :=
  match getPopulationPipelineOptimized db
      ((db.reports.map encReport).filter (matchFilter (.byId i))) with
  | [] => .error { code := "REPORT_NOT_FOUND", message := "Report not found", status := 404 }
  | d :: _ => .ok d

/-- The raw report service.CreateReport persists: trimmed name and year,
the four raw references, reportData defaulted to an empty array when
absent, both timestamps stamped by Create. -/
def newReportOf (req : CreateReportRequest) (newId : OId) (now : Int) : ReportE :=
  { id := newId, reportName := trimSpace req.reportName, reportType := req.reportType,
    year := trimSpace req.year, company := req.company, currency := req.currency,
    createdBy := req.createBy, userAccess := req.userAccess,
    reportData := req.reportData.getD (.arr []), createdAt := now, updatedAt := now }

/-- The database state after inserting the new raw report. -/
def dbAfterCreate (db : DB) (req : CreateReportRequest) (newId : OId) (now : Int) : DB :=
  { db with reports := db.reports ++ [newReportOf req newId now] }

/-- service.CreateReport (internal/app/report/service.go): persist the
raw report, then immediately read it back through the population
pipeline and convert it with ToReportResponse. -/
def CreateReport (db : DB) (req : CreateReportRequest) (newId : OId) (now : Int) :
    DB × Except AppError ReportResponse :=
  let db' := dbAfterCreate db req newId now
  (db', (reportRepoGetByID db' newId).map (fun d => ToReportResponse (decodePopulated d)))

/-- The `$set` of reportMongoRepository.Update applied to one stored
report: every raw field replaced, updatedAt restamped, `_id` and
createdAt untouched. -/
def updatedReportOf (x r : ReportE) (now : Int) : ReportE :=
  { id := x.id, reportName := r.reportName, reportType := r.reportType,
    year := r.year, company := r.company, currency := r.currency,
    createdBy := r.createdBy, userAccess := r.userAccess,
    reportData := r.reportData, createdAt := x.createdAt, updatedAt := now }

/-- The database state after the update's `$set` on the matching report. -/
def dbAfterUpdate (db : DB) (rid : OId) (r : ReportE) (now : Int) : DB :=
  { db with reports := db.reports.map (fun x =>
      if x.id == rid then updatedReportOf x r now else x) }

/-- reportMongoRepository.Update: a `$set` of the raw fields,
REPORT_NOT_FOUND when no document matches, then a read-back through
GetByID. -/
def reportRepoUpdate (db : DB) (rid : OId) (r : ReportE) (now : Int) :
    DB × Except AppError BDoc :=
  if db.reports.any (fun x => x.id == rid) then
    let db' := dbAfterUpdate db rid r now
    (db', reportRepoGetByID db' rid)
  else
    (db, .error { code := "REPORT_NOT_FOUND", message := "Report not found", status := 404 })

/-- service.GetReportsByCompanies: fewer than two company ids is the
INSUFFICIENT_COMPANIES business-rule rejection (400) before any
repository call; otherwise the repository queries all listed companies
through the population pipeline. -/
def GetReportsByCompanies (db : DB) (companyIds : List OId) :
    Except AppError (List ReportResponse) :=
  if companyIds.length < 2 then
    .error { code := "INSUFFICIENT_COMPANIES", message := "Need 2 or more companies", status := 400 }
  else
    .ok ((getPopulationPipelineOptimized db
      ((db.reports.map encReport).filter (matchFilter (.byCompanies companyIds)))).map
        (fun d => ToReportResponse (decodePopulated d)))

/-! ## Company service (company service file and company_mongo.go) -/

/-- CreateCompanyRequest after user-id hex parsing. -/
structure CreateCompanyRequest where
  name : String
  profilePicture : Option String
  user : List OId

/-- ErrCompanyAlreadyExists (internal/app/company/errors.go). -/
def ErrCompanyAlreadyExists : AppError :=
  { code := "COMPANY_ALREADY_EXISTS", message := "Company name already exists", status := 409 }

/-- ErrInvalidCompanyName (errors.go). -/
def ErrInvalidCompanyName : AppError :=
  { code := "INVALID_COMPANY_NAME", message := "Company name is invalid", status := 400 }

/-- ErrUserNotFound (errors.go). -/
def ErrUserNotFound : AppError :=
  { code := "USER_NOT_FOUND", message := "User not found", status := 404 }

/-- The error companyMongoRepository.Create produces when the store
rejects the insert with a duplicate-key failure
(mongo.IsDuplicateKeyError remapped in company_mongo.go). -/
def companyDupKeyError : AppError :=
  { code := "COMPANY_ALREADY_EXISTS", message := "Company name already exists", status := 409 }

/-- companyMongoRepository.GetByName: exact match first, then the
anchored case-insensitive `$regex` fallback, modelled as
case-insensitive equality (names containing regex metacharacters would
behave differently in MongoDB; no claim exercises them). -/
def companyRepoGetByName (companies : List CompanyE) (name : String) : Option CompanyE :=
  match companies.find? (fun c => c.name == name) with
  | some c => some c
  | none => companies.find? (fun c => c.name.toLower == name.toLower)

/-- companyMongoRepository.Create: the store's unique-index
duplicate-key rejection on the company name is caught and remapped to
the conflict error; otherwise the document is inserted. -/
def companyRepoCreate (companies : List CompanyE) (c : CompanyE) :
    Except AppError (List CompanyE) :=
  if companies.any (fun x => x.name == c.name) then .error companyDupKeyError
  else .ok (companies ++ [c])

/-- The company document service.CreateCompany persists: the trimmed
name, the optional profile picture, the verified user references, and
the timestamps the repository stamps on insert. -/
def insertedCompanyOf (req : CreateCompanyRequest) (newId : OId) (now : Int) : CompanyE :=
  { id := newId, name := trimSpace req.name, profilePicture := req.profilePicture,
    user := req.user, createdAt := now, updatedAt := now }

/-- service.CreateCompany: trim and reject empty names, pre-check by
name and reject with ErrCompanyAlreadyExists, verify every referenced
user exists, then insert through the repository. -/
def CreateCompany (users : List UserE) (companies : List CompanyE)
    (req : CreateCompanyRequest) (newId : OId) (now : Int) :
    Except AppError (List CompanyE) :=
  let name := trimSpace req.name
  if name == "" then .error ErrInvalidCompanyName
  else
    match companyRepoGetByName companies name with
    | some _ => .error ErrCompanyAlreadyExists
    | none =>
      if req.user.all (fun i => users.any (fun u => u.id == i)) then
        companyRepoCreate companies (insertedCompanyOf req newId now)
      else .error ErrUserNotFound

/-! ## Dual-mode idOrName dispatch (company handler and reporttype handler) -/

/-- Which lookup the handler dispatches to. -/
inductive LookupMode where
  | byIdMode
  | byNameMode
deriving DecidableEq, Repr

/-- isHexString (company handler): every rune is 0-9, a-f or A-F. -/
def isHexString (s : String) : Bool :=
  s.toList.all (fun c =>
    (c ≥ '0' && c ≤ '9') || (c ≥ 'a' && c ≤ 'f') || (c ≥ 'A' && c ≤ 'F'))

/-- GetCompanyByIDOrName dispatch: 24 bytes AND hex resolves by id,
anything else by name (Go `len` counts bytes). -/
def GetCompanyByIDOrName (s : String) : LookupMode :=
  if s.utf8ByteSize == 24 && isHexString s then .byIdMode else .byNameMode

/-- GetReportTypeByIDOrName dispatch: the reporttype handler checks the
length alone — any 24-byte segment resolves by id. -/
def GetReportTypeByIDOrName (s : String) : LookupMode :=
  if s.utf8ByteSize == 24 then .byIdMode else .byNameMode

/-! ## In-memory TTL cache (internal/utils/cache.go) -/

/-- CacheItem: a value and its absolute expiration instant. -/
structure CacheItemM (α : Type) where
  value : α
  expiration : Int

/-- CacheItem.IsExpired: `time.Now().After(expiration)` — strictly after. -/
def CacheItemM.isExpiredAt {α : Type} (it : CacheItemM α) (now : Int) : Bool :=
  now > it.expiration

/-- The cache map. -/
abbrev CacheMap (α : Type) := List (String × CacheItemM α)

/-- Association-list lookup (a Go map read). -/
def alookup {β : Type} (l : List (String × β)) (k : String) : Option β :=
  (l.find? (fun kv => kv.1 == k)).map (fun kv => kv.2)

/-- Association-list write (a Go map assignment: replace or insert). -/
def aset {β : Type} (l : List (String × β)) (k : String) (v : β) : List (String × β) :=
  if l.any (fun kv => kv.1 == k) then
    l.map (fun kv => if kv.1 == k then (k, v) else kv)
  else
    l ++ [(k, v)]

/-- Association-list delete (a Go map delete). -/
def aerase {β : Type} (l : List (String × β)) (k : String) : List (String × β) :=
  l.filter (fun kv => !(kv.1 == k))

/-- Cache.Set: store the value with expiration now + ttl. -/
def cacheSet {α : Type} (c : CacheMap α) (k : String) (v : α) (ttl now : Int) : CacheMap α :=
  aset c k { value := v, expiration := now + ttl }

/-- Cache.Get: absent keys report not-found; an expired entry is deleted
on that same read and reports not-found; otherwise the value is
returned.  The result carries the post-read cache state. -/
def cacheGet {α : Type} (c : CacheMap α) (k : String) (now : Int) :
    CacheMap α × Option α × Bool :=
  match alookup c k with
  | none => (c, none, false)
  | some it =>
    if it.isExpiredAt now then (aerase c k, none, false)
    else (c, some it.value, true)

/-- Cache.Delete. -/
def cacheDelete {α : Type} (c : CacheMap α) (k : String) : CacheMap α :=
  aerase c k

/-! ## Fixed-window rate limiter (request_limit_middleware.go) -/

/-- The per-client counter and window start. -/
structure RLClient where
  requests : Nat
  window : Int
deriving DecidableEq, Repr

/-- What the middleware does with one request: pass it through with the
rate headers, or reject it with 429, remaining 0 and Retry-After. -/
inductive RLOutcome where
  | allowed (limitHeader remainingHeader : Nat)
  | rejected (status limitHeader remainingHeader retryAfter : Nat)
deriving DecidableEq, Repr

/-- The clients map. -/
abbrev RLState := List (String × RLClient)

/-- One request through RateLimitMiddleware: the client key is the
forwarded-for header when present, else the remote address (passed here
as `ip`); a missing entry starts at zero with the window at now; a
window older than one minute is reset before the increment; a
post-increment count above the limit is a 429 with remaining 0 and
Retry-After 60, otherwise the request passes with the remaining budget
in the headers.  Time is in seconds. -/
def rateLimitStep (limit : Nat) (now : Int) (ip : String) (st : RLState) :
    RLState × RLOutcome :=
  let c0 : RLClient :=
    match alookup st ip with
    | some c => c
    | none => { requests := 0, window := now }
  let c1 : RLClient :=
    if now - c0.window > 60 then { requests := 0, window := now } else c0
  let c2 : RLClient := { c1 with requests := c1.requests + 1 }
  let st' := aset st ip c2
  if c2.requests > limit then
    (st', .rejected 429 limit 0 60)
  else
    (st', .allowed limit (limit - c2.requests))

/-- A sequence of requests from one client at the given instants. -/
def rateLimitRun (limit : Nat) (ip : String) (times : List Int) (st : RLState) :
    RLState × List RLOutcome :=
  match times with
  | [] => (st, [])
  | t :: ts =>
    let r1 := rateLimitStep limit t ip st
    let r2 := rateLimitRun limit ip ts r1.1
    (r2.1, r1.2 :: r2.2)


/-! ## Concrete sample data for evaluating the development -/

/-- A sample user. -/
def sampleUser : UserE :=
  { id := 11, name := "Ana", email := "ana@x.io", password := "hash", role := "SUPER_ADMIN",
    company := [21], createdAt := 100, updatedAt := 101 }

/-- A second sample user. -/
def sampleUser2 : UserE :=
  { id := 12, name := "Bo", email := "bo@x.io", password := "hash2", role := "CLIENT",
    company := [], createdAt := 102, updatedAt := 103 }

/-- A sample company. -/
def sampleCompany : CompanyE :=
  { id := 21, name := "Acme", profilePicture := some "/p.png", user := [11],
    createdAt := 110, updatedAt := 111 }

/-- A second sample company. -/
def sampleCompany2 : CompanyE :=
  { id := 22, name := "Globex", profilePicture := none, user := [],
    createdAt := 112, updatedAt := 113 }

/-- A sample report type. -/
def sampleReportType : ReportTypeE := { id := 31, name := "Balance Sheet" }

/-- A sample raw report. -/
def sampleReport : ReportE :=
  { id := 41, reportName := "FY24", reportType := 31, year := "2024", company := 21,
    currency := some "IDR", createdBy := 11, userAccess := [11, 12],
    reportData := .arr [.num 7], createdAt := 120, updatedAt := 121 }

/-- A sample database state. -/
def sampleDB : DB :=
  { users := [sampleUser, sampleUser2], companies := [sampleCompany, sampleCompany2],
    reporttypes := [sampleReportType], reports := [sampleReport] }

/-- A sample populated report with every optional part absent. -/
def samplePopulated : PopulatedReport :=
  { id := 41, reportName := "FY24", reportType := none, year := "2024", company := none,
    currency := none, createdBy := none, userAccess := none, reportData := none,
    createdAt := 120, updatedAt := 121 }

/-- A sample create-report request. -/
def sampleCreateReq : CreateReportRequest :=
  { reportName := " FY25 ", reportType := 31, year := " 2025 ", company := 21,
    currency := none, createBy := 11, userAccess := [12], reportData := none }

/-- A sample create-company request. -/
def sampleCompanyReq : CreateCompanyRequest :=
  { name := " Initech ", profilePicture := none, user := [11] }

/-! ## Pipeline correctness lemmas -/

theorem getF_encUser_id (u : UserE) : getF (encUser u) "_id" = some (.oid u.id) := rfl

theorem getF_encCompany_id (c : CompanyE) : getF (encCompany c) "_id" = some (.oid c.id) := rfl

theorem getF_encReportType_id (t : ReportTypeE) :
    getF (encReportType t) "_id" = some (.oid t.id) := rfl

/-- With pairwise-distinct keys, filtering by one key yields exactly the
`find?` result: MongoDB's unique `_id` index makes a `$lookup` on `_id`
return at most one document. -/
theorem filter_key_eq_find {α : Type} (key : α → OId) (i : OId) (l : List α)
    (h : (l.map key).Nodup) :
    l.filter (fun a => key a == i) = (l.find? (fun a => key a == i)).toList := by
  induction l with
  | nil => rfl
  | cons a t ih =>
    simp only [List.map_cons, List.nodup_cons] at h
    by_cases hk : (key a == i) = true
    · have hne : t.filter (fun a => key a == i) = [] := by
        apply List.filter_eq_nil_iff.mpr
        intro b hb hbk
        apply h.1
        have : key b = i := by simpa using hbk
        have hai : key a = i := by simpa using hk
        rw [List.mem_map]
        exact ⟨b, hb, by rw [this, hai]⟩
      simp [List.filter_cons, List.find?_cons, hk, hne]
    · simp only [List.filter_cons, List.find?_cons, hk]
      simp only [Bool.false_eq_true, if_false]
      exact ih h.2

/-- A `$lookup` against the companies collection on `_id` returns exactly
the (at most one) company with the matching identifier. -/
theorem lookup_found_company (cs : List CompanyE) (i : OId) (sub : BDoc → BDoc)
    (h : (cs.map (fun c => c.id)).Nodup) :
    ((cs.map encCompany).filter (fun f => lookupEq (.oid i) (getF f "_id"))).map
        (fun f => BVal.doc (sub f))
      = ((cs.find? (fun c => c.id == i)).toList).map
          (fun c => BVal.doc (sub (encCompany c))) := by
  rw [List.filter_map]
  have hpt : ((fun f => lookupEq (.oid i) (getF f "_id")) ∘ encCompany)
      = fun c => c.id == i := by
    funext c
    show lookupEq (.oid i) (getF (encCompany c) "_id") = (c.id == i)
    rw [getF_encCompany_id]
    show (i == c.id) = (c.id == i)
    exact BEq.comm
  rw [hpt, filter_key_eq_find _ _ _ h, List.map_map]
  rfl

/-- A `$lookup` against the report types collection on `_id` returns
exactly the (at most one) report type with the matching identifier. -/
theorem lookup_found_reportType (ts : List ReportTypeE) (i : OId) (sub : BDoc → BDoc)
    (h : (ts.map (fun t => t.id)).Nodup) :
    ((ts.map encReportType).filter (fun f => lookupEq (.oid i) (getF f "_id"))).map
        (fun f => BVal.doc (sub f))
      = ((ts.find? (fun t => t.id == i)).toList).map
          (fun t => BVal.doc (sub (encReportType t))) := by
  rw [List.filter_map]
  have hpt : ((fun f => lookupEq (.oid i) (getF f "_id")) ∘ encReportType)
      = fun t => t.id == i := by
    funext t
    show lookupEq (.oid i) (getF (encReportType t) "_id") = (t.id == i)
    rw [getF_encReportType_id]
    show (i == t.id) = (t.id == i)
    exact BEq.comm
  rw [hpt, filter_key_eq_find _ _ _ h, List.map_map]
  rfl

/-- A `$lookup` against the users collection on `_id` with a scalar local
value returns exactly the (at most one) user with that identifier. -/
theorem lookup_found_user (us : List UserE) (i : OId) (sub : BDoc → BDoc)
    (h : (us.map (fun u => u.id)).Nodup) :
    ((us.map encUser).filter (fun f => lookupEq (.oid i) (getF f "_id"))).map
        (fun f => BVal.doc (sub f))
      = ((us.find? (fun u => u.id == i)).toList).map
          (fun u => BVal.doc (sub (encUser u))) := by
  rw [List.filter_map]
  have hpt : ((fun f => lookupEq (.oid i) (getF f "_id")) ∘ encUser)
      = fun u => u.id == i := by
    funext u
    show lookupEq (.oid i) (getF (encUser u) "_id") = (u.id == i)
    rw [getF_encUser_id]
    show (i == u.id) = (u.id == i)
    exact BEq.comm
  rw [hpt, filter_key_eq_find _ _ _ h, List.map_map]
  rfl

/-- Array-membership matching over encoded identifiers coincides with
membership over the raw identifiers. -/
theorem any_map_beq (ids : List OId) (j : OId) :
    (ids.map BVal.oid).any (fun x => BVal.beq x (.oid j))
      = ids.any (fun a => a == j) := by
  induction ids with
  | nil => rfl
  | cons a t ih =>
    show (BVal.beq (.oid a) (.oid j) || (t.map BVal.oid).any (fun x => BVal.beq x (.oid j)))
      = (a == j || t.any (fun a => a == j))
    rw [ih]
    rfl

/-- A `$lookup` against the users collection on `_id` with an array local
value (the `userAccess` case) returns the users whose identifier occurs
in the array, in collection order. -/
theorem lookup_userAccess (us : List UserE) (ids : List OId) (sub : BDoc → BDoc) :
    ((us.map encUser).filter
        (fun f => lookupEq (.arr (ids.map BVal.oid)) (getF f "_id"))).map
        (fun f => BVal.doc (sub f))
      = (us.filter (fun u => ids.any (fun a => a == u.id))).map
          (fun u => BVal.doc (sub (encUser u))) := by
  rw [List.filter_map, List.map_map]
  have hpt : ((fun f => lookupEq (.arr (ids.map BVal.oid)) (getF f "_id")) ∘ encUser)
      = fun u => ids.any (fun a => a == u.id) := by
    funext u
    show lookupEq (.arr (ids.map BVal.oid)) (getF (encUser u) "_id")
      = ids.any (fun a => a == u.id)
    rw [getF_encUser_id]
    exact any_map_beq ids u.id
  rw [hpt]
  rfl

/-- The optimized `$project` sub-pipeline on an encoded company is the
spec's projected company object. -/
theorem projInc_encCompany (c : CompanyE) :
    projInc companyProjKeys (encCompany c) = specCompanyDoc c := by
  obtain ⟨i, nm, pp, us, ca, ua⟩ := c
  cases pp <;> rfl

/-- The optimized `$project` sub-pipeline on an encoded report type is the
spec's projected report type object. -/
theorem projInc_encReportType (t : ReportTypeE) :
    projInc reportTypeProjKeys (encReportType t) = specReportTypeDoc t := rfl

/-- The optimized `$project` sub-pipeline on an encoded user is the spec's
projected user object (password excluded). -/
theorem projInc_encUser (u : UserE) :
    projInc userProjKeys (encUser u) = specUserDoc u := by
  obtain ⟨i, nm, em, pw, rl, co, ca, ua, rt, re⟩ := u
  cases rt <;> cases re <;> rfl

/-- The unwind-based pipeline's `$map` body on an encoded user is the
spec's projected user object as well. -/
theorem mapUserDoc_encUser (u : UserE) :
    mapUserDoc (.doc (encUser u)) = .doc (specUserDoc u) := by
  obtain ⟨i, nm, em, pw, rl, co, ca, ua, rt, re⟩ := u
  cases rt <;> cases re <;> rfl

/-! ## Document-manipulation lemmas -/

theorem getF_cons (kv : String × BVal) (t : BDoc) (k : String) :
    getF (kv :: t) k = if (kv.1 == k) then some kv.2 else getF t k := by
  by_cases h : (kv.1 == k) = true
  · simp [getF, List.find?_cons, h]
  · simp [getF, List.find?_cons, h]

theorem getF_replace (k : String) (v : BVal) (d : BDoc)
    (h : d.any (fun kv => kv.1 == k) = true) :
    getF (d.map (fun kv => if kv.1 == k then (k, v) else kv)) k = some v := by
  induction d with
  | nil => cases h
  | cons kv t ih =>
    rw [List.map_cons]
    by_cases h1 : (kv.1 == k) = true
    · rw [if_pos h1, getF_cons]
      simp
    · rw [if_neg h1, getF_cons, if_neg h1]
      apply ih
      simpa [List.any_cons, h1] using h

theorem getF_append_last (k : String) (v : BVal) (d : BDoc)
    (h : d.any (fun kv => kv.1 == k) = false) :
    getF (d ++ [(k, v)]) k = some v := by
  induction d with
  | nil => simp [getF_cons]
  | cons kv t ih =>
    rw [List.cons_append, getF_cons]
    simp only [List.any_cons, Bool.or_eq_false_iff] at h
    rw [if_neg (by simp [h.1])]
    exact ih h.2

theorem getF_setF (d : BDoc) (k : String) (v : BVal) : getF (setF d k v) k = some v := by
  unfold setF
  by_cases h : d.any (fun kv => kv.1 == k) = true
  · rw [if_pos h]; exact getF_replace k v d h
  · rw [if_neg h]
    exact getF_append_last k v d (by simp only [Bool.not_eq_true] at h; exact h)

theorem any_key_map_replace (d : BDoc) (k : String) (v : BVal) :
    ((d.map (fun kv => if kv.1 == k then (k, v) else kv)).any (fun kv => kv.1 == k))
      = d.any (fun kv => kv.1 == k) := by
  induction d with
  | nil => rfl
  | cons kv t ih =>
    rw [List.map_cons, List.any_cons, List.any_cons, ih]
    by_cases h1 : (kv.1 == k) = true
    · rw [if_pos h1, h1]
      simp
    · rw [if_neg h1]

theorem map_replace_id (d : BDoc) (k : String) (v : BVal)
    (h : d.any (fun kv => kv.1 == k) = false) :
    d.map (fun kv => if kv.1 == k then (k, v) else kv) = d := by
  induction d with
  | nil => rfl
  | cons kv t ih =>
    simp only [List.any_cons, Bool.or_eq_false_iff] at h
    rw [List.map_cons, if_neg (by simp [h.1]), ih h.2]

theorem map_replace_replace (d : BDoc) (k : String) (v w : BVal) :
    (d.map (fun kv => if kv.1 == k then (k, v) else kv)).map
        (fun kv => if kv.1 == k then (k, w) else kv)
      = d.map (fun kv => if kv.1 == k then (k, w) else kv) := by
  induction d with
  | nil => rfl
  | cons kv t ih =>
    rw [List.map_cons, List.map_cons, List.map_cons, ih]
    by_cases h1 : (kv.1 == k) = true
    · rw [if_pos h1, if_pos h1, if_pos (by simp)]
    · rw [if_neg h1, if_neg h1]

theorem setF_setF (d : BDoc) (k : String) (v w : BVal) :
    setF (setF d k v) k w = setF d k w := by
  unfold setF
  by_cases h : d.any (fun kv => kv.1 == k) = true
  · rw [if_pos h, if_pos (by rw [any_key_map_replace]; exact h), if_pos h]
    exact map_replace_replace d k v w
  · have h' : d.any (fun kv => kv.1 == k) = false := by
      simp only [Bool.not_eq_true] at h; exact h
    rw [if_neg h, if_pos (by simp [List.any_append, h'])]
    rw [List.map_append, map_replace_id d k w h', if_neg h]
    simp

theorem filter_ne_map_replace (d : BDoc) (k : String) (v : BVal) :
    (d.map (fun kv => if kv.1 == k then (k, v) else kv)).filter (fun kv => !(kv.1 == k))
      = d.filter (fun kv => !(kv.1 == k)) := by
  induction d with
  | nil => rfl
  | cons kv t ih =>
    rw [List.map_cons, List.filter_cons, List.filter_cons, ih]
    by_cases h1 : (kv.1 == k) = true
    · rw [if_pos h1]
      simp [h1]
    · rw [if_neg h1]

theorem removeF_setF (d : BDoc) (k : String) (v : BVal) :
    removeF (setF d k v) k = removeF d k := by
  unfold setF removeF
  by_cases h : d.any (fun kv => kv.1 == k) = true
  · rw [if_pos h]
    exact filter_ne_map_replace d k v
  · rw [if_neg h, List.filter_append]
    simp

theorem unwindPreserve_setF_nil (d : BDoc) (k : String) :
    unwindPreserve k (setF d k (.arr [])) = [removeF d k] := by
  unfold unwindPreserve
  rw [getF_setF]
  show [removeF (setF d k (.arr [])) k] = [removeF d k]
  rw [removeF_setF]

theorem unwindPreserve_setF_one (d : BDoc) (k : String) (x : BVal) :
    unwindPreserve k (setF d k (.arr [x])) = [setF d k x] := by
  unfold unwindPreserve
  rw [getF_setF]
  show [setF (setF d k (.arr [x])) k x] = [setF d k x]
  rw [setF_setF]

theorem lookupAs_scalar_company (cs : List CompanyE) (i : OId)
    (h : (cs.map (fun c => c.id)).Nodup) (d : BDoc)
    (hd : getF d "company" = some (.oid i)) :
    lookupAs (cs.map encCompany) "company" "_id" "company" id d
      = setF d "company" (.arr (((cs.find? (fun c => c.id == i)).toList).map
          (fun c => BVal.doc (encCompany c)))) := by
  simp only [lookupAs]
  rw [hd]
  show setF d "company" (.arr (((cs.map encCompany).filter
      (fun f => lookupEq (.oid i) (getF f "_id"))).map (fun f => BVal.doc (id f)))) = _
  rw [lookup_found_company cs i id h]
  rfl

theorem lookupAs_scalar_reportType (ts : List ReportTypeE) (i : OId)
    (h : (ts.map (fun t => t.id)).Nodup) (d : BDoc)
    (hd : getF d "reportType" = some (.oid i)) :
    lookupAs (ts.map encReportType) "reportType" "_id" "reportType" id d
      = setF d "reportType" (.arr (((ts.find? (fun t => t.id == i)).toList).map
          (fun t => BVal.doc (encReportType t)))) := by
  simp only [lookupAs]
  rw [hd]
  show setF d "reportType" (.arr (((ts.map encReportType).filter
      (fun f => lookupEq (.oid i) (getF f "_id"))).map (fun f => BVal.doc (id f)))) = _
  rw [lookup_found_reportType ts i id h]
  rfl

theorem lookupAs_scalar_createdBy (us : List UserE) (i : OId)
    (h : (us.map (fun u => u.id)).Nodup) (d : BDoc)
    (hd : getF d "createdBy" = some (.oid i)) :
    lookupAs (us.map encUser) "createdBy" "_id" "createdBy" id d
      = setF d "createdBy" (.arr (((us.find? (fun u => u.id == i)).toList).map
          (fun u => BVal.doc (encUser u)))) := by
  simp only [lookupAs]
  rw [hd]
  show setF d "createdBy" (.arr (((us.map encUser).filter
      (fun f => lookupEq (.oid i) (getF f "_id"))).map (fun f => BVal.doc (id f)))) = _
  rw [lookup_found_user us i id h]
  rfl

theorem lookupAs_userAccess_arr (us : List UserE) (ids : List OId) (d : BDoc)
    (hd : getF d "userAccess" = some (.arr (ids.map BVal.oid))) :
    lookupAs (us.map encUser) "userAccess" "_id" "userAccess" id d
      = setF d "userAccess" (.arr ((us.filter (fun u => ids.any (fun a => a == u.id))).map
          (fun u => BVal.doc (encUser u)))) := by
  simp only [lookupAs]
  rw [hd]
  show setF d "userAccess" (.arr (((us.map encUser).filter
      (fun f => lookupEq (.arr (ids.map BVal.oid)) (getF f "_id"))).map
      (fun f => BVal.doc (id f)))) = _
  rw [lookup_userAccess us ids id]
  rfl

theorem mapUserDoc_over_enc (l : List UserE) :
    (l.map (fun u => BVal.doc (encUser u))).map mapUserDoc
      = l.map (fun u => BVal.doc (specUserDoc u)) := by
  induction l with
  | nil => rfl
  | cons a t ih => rw [List.map_cons, List.map_cons, List.map_cons, ih, mapUserDoc_encUser]

set_option maxHeartbeats 4000000 in
theorem unwind_doc_spec (db : DB) (r : ReportE)
    (hu : (db.users.map (fun u => u.id)).Nodup)
    (hc : (db.companies.map (fun c => c.id)).Nodup)
    (ht : (db.reporttypes.map (fun t => t.id)).Nodup) :
    getPopulationPipelineUnwind db [encReport r] = [populatedDocSpec db r] := by
  obtain ⟨rid, rnm, rrt, ryr, rco, rcur, rcb, rua, rdt, rca, rup⟩ := r
  cases rcur
  all_goals simp only [getPopulationPipelineUnwind, List.map_cons, List.map_nil,
    List.flatMap_cons, List.flatMap_nil, List.append_nil]
  all_goals rw [lookupAs_scalar_company db.companies rco hc]
  all_goals try rfl
  all_goals cases hfc : db.companies.find? (fun c => c.id == rco)
  all_goals simp only [Option.toList, List.map_cons, List.map_nil,
    unwindPreserve_setF_nil, unwindPreserve_setF_one,
    List.flatMap_cons, List.flatMap_nil, List.append_nil]
  all_goals rw [lookupAs_scalar_reportType db.reporttypes rrt ht]
  all_goals try rfl
  all_goals cases hft : db.reporttypes.find? (fun t => t.id == rrt)
  all_goals simp only [Option.toList, List.map_cons, List.map_nil,
    unwindPreserve_setF_nil, unwindPreserve_setF_one,
    List.flatMap_cons, List.flatMap_nil, List.append_nil]
  all_goals rw [lookupAs_scalar_createdBy db.users rcb hu]
  all_goals try rfl
  all_goals cases hfu : db.users.find? (fun u => u.id == rcb)
  all_goals simp only [Option.toList, List.map_cons, List.map_nil,
    unwindPreserve_setF_nil, unwindPreserve_setF_one,
    List.flatMap_cons, List.flatMap_nil, List.append_nil]
  all_goals rw [lookupAs_userAccess_arr db.users rua]
  all_goals try rfl
  all_goals simp only [populatedDocSpec, findById, hfc, hft, hfu, Option.toList,
    Option.map_some', Option.map_none', List.map_cons, List.map_nil]
  all_goals rw [← mapUserDoc_over_enc]
  all_goals try rw [← projInc_encCompany]
  all_goals try rw [← projInc_encUser]
  all_goals rfl

/-- The optimized pipeline on one encoded report produces exactly the
expected populated document. -/
theorem optimized_doc_spec (db : DB) (r : ReportE)
    (hu : (db.users.map (fun u => u.id)).Nodup)
    (hc : (db.companies.map (fun c => c.id)).Nodup)
    (ht : (db.reporttypes.map (fun t => t.id)).Nodup) :
    projectOptimizedFinal
      (lookupAs (db.users.map encUser) "userAccess" "_id" "userAccess" (projInc userProjKeys)
        (lookupAs (db.users.map encUser) "createdBy" "_id" "createdBy" (projInc userProjKeys)
          (lookupAs (db.reporttypes.map encReportType) "reportType" "_id" "reportType"
              (projInc reportTypeProjKeys)
            (lookupAs (db.companies.map encCompany) "company" "_id" "company"
              (projInc companyProjKeys) (encReport r)))))
      = populatedDocSpec db r := by
  obtain ⟨rid, rnm, rrt, ryr, rco, rcur, rcb, rua, rdt, rca, rup⟩ := r
  cases rcur with
  | none =>
    show projectOptimizedFinal
      [("_id", .oid rid), ("reportName", .str rnm),
       ("reportType", .arr (((db.reporttypes.map encReportType).filter
           (fun f => lookupEq (.oid rrt) (getF f "_id"))).map
           (fun f => BVal.doc (projInc reportTypeProjKeys f)))),
       ("year", .str ryr),
       ("company", .arr (((db.companies.map encCompany).filter
           (fun f => lookupEq (.oid rco) (getF f "_id"))).map
           (fun f => BVal.doc (projInc companyProjKeys f)))),
       ("createdBy", .arr (((db.users.map encUser).filter
           (fun f => lookupEq (.oid rcb) (getF f "_id"))).map
           (fun f => BVal.doc (projInc userProjKeys f)))),
       ("userAccess", .arr (((db.users.map encUser).filter
           (fun f => lookupEq (.arr (rua.map BVal.oid)) (getF f "_id"))).map
           (fun f => BVal.doc (projInc userProjKeys f)))),
       ("reportData", rdt), ("createdAt", .time rca), ("updatedAt", .time rup)]
      = populatedDocSpec db ⟨rid, rnm, rrt, ryr, rco, none, rcb, rua, rdt, rca, rup⟩
    rw [lookup_found_reportType db.reporttypes rrt _ ht,
        lookup_found_company db.companies rco _ hc,
        lookup_found_user db.users rcb _ hu,
        lookup_userAccess db.users rua _]
    simp only [projInc_encReportType, projInc_encCompany, projInc_encUser]
    simp only [populatedDocSpec, findById]
    cases ht1 : db.reporttypes.find? (fun t => t.id == rrt) <;>
      cases hc1 : db.companies.find? (fun c => c.id == rco) <;>
        cases hu1 : db.users.find? (fun u => u.id == rcb) <;> rfl
  | some cur =>
    show projectOptimizedFinal
      [("_id", .oid rid), ("reportName", .str rnm),
       ("reportType", .arr (((db.reporttypes.map encReportType).filter
           (fun f => lookupEq (.oid rrt) (getF f "_id"))).map
           (fun f => BVal.doc (projInc reportTypeProjKeys f)))),
       ("year", .str ryr),
       ("company", .arr (((db.companies.map encCompany).filter
           (fun f => lookupEq (.oid rco) (getF f "_id"))).map
           (fun f => BVal.doc (projInc companyProjKeys f)))),
       ("currency", .str cur),
       ("createdBy", .arr (((db.users.map encUser).filter
           (fun f => lookupEq (.oid rcb) (getF f "_id"))).map
           (fun f => BVal.doc (projInc userProjKeys f)))),
       ("userAccess", .arr (((db.users.map encUser).filter
           (fun f => lookupEq (.arr (rua.map BVal.oid)) (getF f "_id"))).map
           (fun f => BVal.doc (projInc userProjKeys f)))),
       ("reportData", rdt), ("createdAt", .time rca), ("updatedAt", .time rup)]
      = populatedDocSpec db ⟨rid, rnm, rrt, ryr, rco, some cur, rcb, rua, rdt, rca, rup⟩
    rw [lookup_found_reportType db.reporttypes rrt _ ht,
        lookup_found_company db.companies rco _ hc,
        lookup_found_user db.users rcb _ hu,
        lookup_userAccess db.users rua _]
    simp only [projInc_encReportType, projInc_encCompany, projInc_encUser]
    simp only [populatedDocSpec, findById]
    cases ht1 : db.reporttypes.find? (fun t => t.id == rrt) <;>
      cases hc1 : db.companies.find? (fun c => c.id == rco) <;>
        cases hu1 : db.users.find? (fun u => u.id == rcb) <;> rfl

/-- The optimized pipeline maps every encoded report to its expected
populated document. -/
theorem optimized_pipeline_spec (db : DB) (rs : List ReportE) (hwf : DBWF db) :
    getPopulationPipelineOptimized db (rs.map encReport)
      = rs.map (populatedDocSpec db) := by
  obtain ⟨hu, hc, ht⟩ := hwf
  simp only [getPopulationPipelineOptimized, List.map_map]
  apply List.map_congr_left
  intro r _
  exact optimized_doc_spec db r hu hc ht

/-- The unwind-based pipeline distributes over list append. -/
theorem unwind_pipeline_append (db : DB) (a b : List BDoc) :
    getPopulationPipelineUnwind db (a ++ b)
      = getPopulationPipelineUnwind db a ++ getPopulationPipelineUnwind db b := by
  simp only [getPopulationPipelineUnwind, List.map_append, List.flatMap_append]

/-- The unwind-based pipeline also maps every encoded report to its
expected populated document. -/
theorem unwind_pipeline_spec (db : DB) (rs : List ReportE) (hwf : DBWF db) :
    getPopulationPipelineUnwind db (rs.map encReport)
      = rs.map (populatedDocSpec db) := by
  obtain ⟨hu, hc, ht⟩ := hwf
  induction rs with
  | nil => rfl
  | cons r t ih =>
    have hsplit : (r :: t).map encReport = [encReport r] ++ t.map encReport := rfl
    rw [hsplit, unwind_pipeline_append, unwind_doc_spec db r hu hc ht, ih]
    rfl

/-- As `any_map_beq`, with the compared identifier on the left. -/
theorem any_map_beq_left (ids : List OId) (j : OId) :
    (ids.map BVal.oid).any (fun v => BVal.beq (.oid j) v)
      = ids.any (fun c => j == c) := by
  induction ids with
  | nil => rfl
  | cons a t ih =>
    show (BVal.beq (.oid j) (.oid a) || (t.map BVal.oid).any (fun v => BVal.beq (.oid j) v))
      = (j == a || t.any (fun c => j == c))
    rw [ih]
    rfl

/-- Each repository `$match` predicate on an encoded report coincides
with the corresponding typed predicate on the raw report. -/
theorem matchFilter_enc (f : ReportFilter) (r : ReportE) :
    matchFilter f (encReport r) = reportMatches f r := by
  obtain ⟨rid, rnm, rrt, ryr, rco, rcur, rcb, rua, rdt, rca, rup⟩ := r
  cases f
  case byUserAccess u =>
    cases rcur <;>
      (show (false || (rua.map BVal.oid).any (fun x => BVal.beq x (.oid u)))
          = rua.any (fun a => a == u)
       rw [Bool.false_or, any_map_beq])
  case byCompanies cs =>
    cases rcur <;>
      (show (cs.map BVal.oid).any (fun v => BVal.beq (.oid rco) v)
          = cs.any (fun c => rco == c)
       exact any_map_beq_left cs rco)
  all_goals cases rcur <;> rfl

/-- Filtering the encoded collection is encoding the filtered typed
collection. -/
theorem matched_docs (db : DB) (f : ReportFilter) :
    (db.reports.map encReport).filter (matchFilter f)
      = (db.reports.filter (reportMatches f)).map encReport := by
  rw [List.filter_map]
  congr 1
  apply List.filter_congr
  intro r _
  exact matchFilter_enc f r

/-- Every repository query through the optimized pipeline returns
exactly the expected populated documents of the matched reports. -/
theorem runPopulationOptimized_spec (db : DB) (f : ReportFilter) (hwf : DBWF db) :
    runPopulationOptimized db f
      = (db.reports.filter (reportMatches f)).map (populatedDocSpec db) := by
  rw [runPopulationOptimized, matched_docs, optimized_pipeline_spec _ _ hwf]

/-- Every repository query through the unwind-based pipeline returns the
same expected populated documents. -/
theorem runPopulationUnwind_spec (db : DB) (f : ReportFilter) (hwf : DBWF db) :
    runPopulationUnwind db f
      = (db.reports.filter (reportMatches f)).map (populatedDocSpec db) := by
  rw [runPopulationUnwind, matched_docs, unwind_pipeline_spec _ _ hwf]

/-- In the expected populated document, each single reference is either
the full projected embedded object or absent, and userAccess is the
projected list — read off field by field. -/
theorem getF_populatedDocSpec_refs (db : DB) (r : ReportE) :
    getF (populatedDocSpec db r) "reportType"
        = (findById db.reporttypes (fun t => t.id) r.reportType).map
            (fun t => .doc (specReportTypeDoc t))
      ∧ getF (populatedDocSpec db r) "company"
        = (findById db.companies (fun c => c.id) r.company).map
            (fun c => .doc (specCompanyDoc c))
      ∧ getF (populatedDocSpec db r) "createdBy"
        = (findById db.users (fun u => u.id) r.createdBy).map
            (fun u => .doc (specUserDoc u))
      ∧ getF (populatedDocSpec db r) "userAccess"
        = some (.arr ((db.users.filter
            (fun u => r.userAccess.any (fun a => a == u.id))).map
              (fun u => .doc (specUserDoc u)))) := by
  simp only [populatedDocSpec]
  cases findById db.reporttypes (fun t => t.id) r.reportType <;>
    cases findById db.companies (fun c => c.id) r.company <;>
      cases r.currency <;>
        cases findById db.users (fun u => u.id) r.createdBy <;>
          exact ⟨rfl, rfl, rfl, rfl⟩

/-- Association-list lookup on a cons cell. -/
theorem alookup_cons {β : Type} (kv : String × β) (t : List (String × β)) (k : String) :
    alookup (kv :: t) k = if (kv.1 == k) then some kv.2 else alookup t k := by
  by_cases h : (kv.1 == k) = true
  · simp [alookup, List.find?_cons, h]
  · simp [alookup, List.find?_cons, h]

/-- A Go map read after a write of the same key sees the written value. -/
theorem alookup_aset {β : Type} (l : List (String × β)) (k : String) (v : β) :
    alookup (aset l k v) k = some v := by
  unfold aset
  by_cases h : l.any (fun kv => kv.1 == k) = true
  · rw [if_pos h]
    induction l with
    | nil => cases h
    | cons kv t ih =>
      rw [List.map_cons]
      by_cases h1 : (kv.1 == k) = true
      · rw [if_pos h1, alookup_cons]
        simp
      · rw [if_neg h1, alookup_cons, if_neg h1]
        apply ih
        simpa [List.any_cons, h1] using h
  · rw [if_neg h]
    have h' : l.any (fun kv => kv.1 == k) = false := by
      simp only [Bool.not_eq_true] at h; exact h
    induction l with
    | nil => simp [alookup_cons]
    | cons kv t ih =>
      rw [List.cons_append, alookup_cons]
      simp only [List.any_cons, Bool.or_eq_false_iff] at h'
      rw [if_neg (by simp [h'.1])]
      exact ih (by simp [List.any_cons, h'.2]) h'.2

/-- A Go map read after a delete of the same key finds nothing. -/
theorem alookup_aerase {β : Type} (l : List (String × β)) (k : String) :
    alookup (aerase l k) k = none := by
  unfold aerase
  induction l with
  | nil => rfl
  | cons kv t ih =>
    rw [List.filter_cons]
    by_cases h : (kv.1 == k) = true
    · rw [if_neg (by simp [h])]
      exact ih
    · rw [if_pos (by simp [h]), alookup_cons, if_neg h]
      exact ih

/-! ## The claims -/

/-- Claim C10: the two versions of the report population pipeline — the
`$unwind`/nested-`$project` one and the optimized `$lookup`-sub-pipeline/
`$arrayElemAt` one — are observationally equivalent: over every database
state (with MongoDB's per-collection `_id` uniqueness) and every match
predicate the repository uses, they produce the same populated
documents, including the treatment of dangling references and of the
userAccess list. -/
theorem pipelines_observationally_equivalent (db : DB) (f : ReportFilter) (hwf : DBWF db) :
    runPopulationUnwind db f = runPopulationOptimized db f := by
  rw [runPopulationUnwind_spec db f hwf, runPopulationOptimized_spec db f hwf]

/-- Witness for C10 at a concrete database state and filter. -/
theorem pipelines_observationally_equivalent_witness :
    DBWF sampleDB
    ∧ runPopulationUnwind sampleDB .all = runPopulationOptimized sampleDB .all :=
  ⟨⟨by decide, by decide, by decide⟩,
   pipelines_observationally_equivalent sampleDB .all ⟨by decide, by decide, by decide⟩⟩

/-- Claim C1: for every report matched by any repository filter, the
assembler's populated representation embeds the referenced company
projected to id, name, profile picture and timestamps, the report type
projected to id and name only, the creator projected to id, name, email,
role and timestamps with the password excluded, and the full user-access
list under the same user projection; each single reference is flattened
to a scalar embedded object that is either the full projected object or
absent when the reference dangles, and never a bare identifier. -/
theorem populated_report_projection (db : DB) (f : ReportFilter) (hwf : DBWF db) :
    runPopulationOptimized db f
        = (db.reports.filter (reportMatches f)).map (populatedDocSpec db)
      ∧ (∀ r : ReportE,
          getF (populatedDocSpec db r) "reportType"
              = (findById db.reporttypes (fun t => t.id) r.reportType).map
                  (fun t => .doc (specReportTypeDoc t))
            ∧ getF (populatedDocSpec db r) "company"
              = (findById db.companies (fun c => c.id) r.company).map
                  (fun c => .doc (specCompanyDoc c))
            ∧ getF (populatedDocSpec db r) "createdBy"
              = (findById db.users (fun u => u.id) r.createdBy).map
                  (fun u => .doc (specUserDoc u))
            ∧ getF (populatedDocSpec db r) "userAccess"
              = some (.arr ((db.users.filter
                  (fun u => r.userAccess.any (fun a => a == u.id))).map
                    (fun u => .doc (specUserDoc u)))))
      ∧ (∀ (r : ReportE) (i : OId),
          getF (populatedDocSpec db r) "reportType" ≠ some (.oid i)
            ∧ getF (populatedDocSpec db r) "company" ≠ some (.oid i)
            ∧ getF (populatedDocSpec db r) "createdBy" ≠ some (.oid i)) := by
  refine ⟨runPopulationOptimized_spec db f hwf,
    fun r => getF_populatedDocSpec_refs db r, fun r i => ?_⟩
  obtain ⟨h1, h2, h3, _⟩ := getF_populatedDocSpec_refs db r
  refine ⟨?_, ?_, ?_⟩
  · rw [h1]
    cases findById db.reporttypes (fun t => t.id) r.reportType <;> simp
  · rw [h2]
    cases findById db.companies (fun c => c.id) r.company <;> simp
  · rw [h3]
    cases findById db.users (fun u => u.id) r.createdBy <;> simp

/-- Witness for C1 at a concrete database state and filter. -/
theorem populated_report_projection_witness :
    DBWF sampleDB
    ∧ runPopulationOptimized sampleDB (.byCompany sampleCompany.id)
        = (sampleDB.reports.filter (reportMatches (.byCompany sampleCompany.id))).map
            (populatedDocSpec sampleDB) :=
  ⟨⟨by decide, by decide, by decide⟩,
   (populated_report_projection sampleDB (.byCompany sampleCompany.id)
     ⟨by decide, by decide, by decide⟩).1⟩

/-- Claim C8, counterexample: on the report-type endpoint a 24-character
NON-hex segment is dispatched to the id lookup, although the claim says
any string other than 24-hex resolves via the name lookup. -/
theorem idOrName_dispatch_counterexample :
    GetReportTypeByIDOrName "zzzzzzzzzzzzzzzzzzzzzzzz" = .byIdMode
    ∧ isHexString "zzzzzzzzzzzzzzzzzzzzzzzz" = false
    ∧ "zzzzzzzzzzzzzzzzzzzzzzzz".utf8ByteSize = 24
    ∧ GetCompanyByIDOrName "zzzzzzzzzzzzzzzzzzzzzzzz" = .byNameMode :=
  ⟨rfl, by decide, by decide, by decide⟩

/-- Claim C8 as amended: on the company endpoint a segment resolves via
the id lookup exactly when it is 24 bytes long AND hexadecimal; on the
report-type endpoint the dispatch is on the length alone — any 24-byte
segment (hex or not) resolves via the id lookup, all others via the
name lookup. -/
theorem idOrName_dispatch (s : String) :
    (GetCompanyByIDOrName s = .byIdMode ↔ (s.utf8ByteSize = 24 ∧ isHexString s = true))
    ∧ (GetReportTypeByIDOrName s = .byIdMode ↔ s.utf8ByteSize = 24) := by
  constructor
  · unfold GetCompanyByIDOrName
    by_cases h1 : s.utf8ByteSize = 24 <;> by_cases h2 : isHexString s = true <;>
      simp [h1, h2]
  · unfold GetReportTypeByIDOrName
    by_cases h1 : s.utf8ByteSize = 24 <;> simp [h1]

/-- Claim C9: the request/response layer types `year` as a string — the
response's year field serializes as a JSON string equal to the stored
populated report's year, and the create path stores the trimmed request
year string in the raw document — while `ReportDeclP13` captures the
conflicting integer declaration of the domain entity.  For every stored
report the response year is the stored year itself. -/
theorem report_year_is_string :
    (∀ pr : PopulatedReport,
        (ToReportResponse pr).year = pr.year
        ∧ getF (reportResponseJson (ToReportResponse pr)) "year" = some (.str pr.year))
    ∧ (∀ (db : DB) (req : CreateReportRequest) (newId : OId) (now : Int),
        (dbAfterCreate db req newId now).reports
            = db.reports ++ [newReportOf req newId now]
          ∧ (newReportOf req newId now).year = trimSpace req.year
          ∧ getF (encReport (newReportOf req newId now)) "year"
              = some (.str (newReportOf req newId now).year)) :=
  ⟨fun _ => ⟨rfl, rfl⟩, fun _ _ _ _ => ⟨rfl, rfl, rfl⟩⟩

/-- Claim C2: in every wire response produced by ToReportResponse, the
reportData field is never null (a nil payload becomes an empty array)
and the userAccess field is never null (a nil user-access list becomes
an empty array), while an absent report type, company or creator is
rendered as null.  The hypothesis excludes the Go-unrepresentable state
of an interface value holding a BSON null: the driver decodes BSON null
to the nil interface, which this model writes as `none`. -/
theorem report_response_never_null (pr : PopulatedReport)
    (h : pr.reportData ≠ some BVal.null) :
    getF (reportResponseJson (ToReportResponse pr)) "reportData" ≠ some BVal.null
    ∧ getF (reportResponseJson (ToReportResponse pr)) "userAccess" ≠ some BVal.null
    ∧ (pr.reportData = none →
        getF (reportResponseJson (ToReportResponse pr)) "reportData" = some (.arr []))
    ∧ (pr.userAccess = none →
        getF (reportResponseJson (ToReportResponse pr)) "userAccess" = some (.arr []))
    ∧ (pr.reportType = none →
        getF (reportResponseJson (ToReportResponse pr)) "reportType" = some .null)
    ∧ (pr.company = none →
        getF (reportResponseJson (ToReportResponse pr)) "company" = some .null)
    ∧ (pr.createdBy = none →
        getF (reportResponseJson (ToReportResponse pr)) "createdBy" = some .null) := by
  have erd : getF (reportResponseJson (ToReportResponse pr)) "reportData"
      = some (pr.reportData.getD (.arr [])) := rfl
  have eua : getF (reportResponseJson (ToReportResponse pr)) "userAccess"
      = some (.arr (((pr.userAccess.getD []).map toUserInfo).map
          (fun u => .doc (userInfoJson u)))) := rfl
  refine ⟨?_, ?_, ?_, ?_, ?_, ?_, ?_⟩
  · rw [erd]
    cases hrd : pr.reportData with
    | none => simp
    | some v =>
      simp only [Option.getD]
      intro hcontra
      apply h
      rw [hrd]
      exact congrArg some (Option.some.inj hcontra)
  · rw [eua]
    intro hcontra
    cases hcontra
  · intro hnone
    rw [erd, hnone]
    rfl
  · intro hnone
    rw [eua, hnone]
    rfl
  · intro hnone
    show some (optObjJson reportTypeInfoJson ((ToReportResponse pr).reportType)) = some .null
    show some (optObjJson reportTypeInfoJson (pr.reportType.map
      (fun t => { id := t.id, name := t.name }))) = some .null
    rw [hnone]
    rfl
  · intro hnone
    show some (optObjJson companyInfoJson (pr.company.map
      (fun c => { id := c.id, name := c.name, profilePicture := c.profilePicture,
                  createdAt := c.createdAt, updatedAt := c.updatedAt }))) = some .null
    rw [hnone]
    rfl
  · intro hnone
    show some (optObjJson userInfoJson (pr.createdBy.map toUserInfo)) = some .null
    rw [hnone]
    rfl

/-- Witness for C2 at a concrete populated report with every optional
part absent. -/
theorem report_response_never_null_witness :
    samplePopulated.reportData ≠ some BVal.null
    ∧ getF (reportResponseJson (ToReportResponse samplePopulated)) "reportData"
        = some (.arr [])
    ∧ getF (reportResponseJson (ToReportResponse samplePopulated)) "userAccess"
        = some (.arr []) :=
  ⟨by simp [samplePopulated],
   (report_response_never_null samplePopulated (by simp [samplePopulated])).2.2.1 rfl,
   (report_response_never_null samplePopulated (by simp [samplePopulated])).2.2.2.1 rfl⟩

/-- Claim C5: after Set(k, v, ttl), a Get(k) before the expiration
instant returns (v, true) and leaves the cache unchanged; a Get(k)
after the expiration instant returns (nil, false) and evicts the
expired entry on that same read, so a subsequent Get(k) — at any time —
also returns (nil, false). -/
theorem cache_set_get_ttl {α : Type} (c : CacheMap α) (k : String) (v : α)
    (ttl tset t1 t2 t3 : Int) (h1 : t1 < tset + ttl) (h2 : t2 > tset + ttl) :
    cacheGet (cacheSet c k v ttl tset) k t1 = (cacheSet c k v ttl tset, some v, true)
    ∧ cacheGet (cacheSet c k v ttl tset) k t2
        = (aerase (cacheSet c k v ttl tset) k, none, false)
    ∧ cacheGet (aerase (cacheSet c k v ttl tset) k) k t3
        = (aerase (cacheSet c k v ttl tset) k, none, false) := by
  have hl : alookup (cacheSet c k v ttl tset) k
      = some { value := v, expiration := tset + ttl } := alookup_aset c k _
  refine ⟨?_, ?_, ?_⟩
  · have hexp : CacheItemM.isExpiredAt { value := v, expiration := tset + ttl } t1 = false := by
      simp only [CacheItemM.isExpiredAt, decide_eq_false_iff_not]
      omega
    simp [cacheGet, hl, hexp]
  · have hexp : CacheItemM.isExpiredAt { value := v, expiration := tset + ttl } t2 = true := by
      simp only [CacheItemM.isExpiredAt, decide_eq_true_eq]
      omega
    simp [cacheGet, hl, hexp]
  · rw [cacheGet, alookup_aerase]

/-- Witness for C5: set("k", 42, 50) at time 0; a get at 40 hits, a get
at 60 misses and evicts, a later get at 70 still misses. -/
theorem cache_set_get_ttl_witness :
    (40 : Int) < 0 + 50 ∧ (60 : Int) > 0 + 50
    ∧ cacheGet (cacheSet ([] : CacheMap Nat) "k" 42 50 0) "k" 40
        = (cacheSet ([] : CacheMap Nat) "k" 42 50 0, some 42, true) :=
  ⟨by decide, by decide,
   (cache_set_get_ttl ([] : CacheMap Nat) "k" 42 50 0 40 60 70
     (by decide) (by decide)).1⟩

/-- Claim C3: a GetReportsByCompanies request with fewer than two
company ids is rejected with the 400 INSUFFICIENT_COMPANIES
business-rule error before any repository query and never yields a
partial result; with two or more ids the reports of all listed
companies are queried through the populated pipeline and returned. -/
theorem reports_by_companies_rule (db : DB) (ids : List OId) :
    (ids.length < 2 →
      GetReportsByCompanies db ids
        = .error { code := "INSUFFICIENT_COMPANIES",
                   message := "Need 2 or more companies", status := 400 })
    ∧ (2 ≤ ids.length → DBWF db →
      GetReportsByCompanies db ids
        = .ok (((db.reports.filter (fun r => ids.any (fun c => r.company == c))).map
            (populatedDocSpec db)).map (fun d => ToReportResponse (decodePopulated d)))) := by
  constructor
  · intro hlt
    rw [GetReportsByCompanies, if_pos hlt]
  · intro hge hwf
    rw [GetReportsByCompanies, if_neg (by omega), matched_docs,
      optimized_pipeline_spec _ _ hwf]
    rfl

/-- Witness for C3: one company id is rejected, two are answered. -/
theorem reports_by_companies_rule_witness :
    ([sampleCompany.id].length < 2
      ∧ GetReportsByCompanies sampleDB [sampleCompany.id]
          = .error { code := "INSUFFICIENT_COMPANIES",
                     message := "Need 2 or more companies", status := 400 })
    ∧ (2 ≤ [sampleCompany.id, sampleCompany2.id].length ∧ DBWF sampleDB
      ∧ GetReportsByCompanies sampleDB [sampleCompany.id, sampleCompany2.id]
          = .ok (((sampleDB.reports.filter (fun r =>
              [sampleCompany.id, sampleCompany2.id].any (fun c => r.company == c))).map
                (populatedDocSpec sampleDB)).map
                  (fun d => ToReportResponse (decodePopulated d)))) :=
  ⟨⟨by decide, (reports_by_companies_rule sampleDB [sampleCompany.id]).1 (by decide)⟩,
   ⟨by decide, ⟨by decide, by decide, by decide⟩,
    (reports_by_companies_rule sampleDB [sampleCompany.id, sampleCompany2.id]).2
      (by decide) ⟨by decide, by decide, by decide⟩⟩⟩

/-- Within one window (no reset fires), each request increments the
counter by one; the k-plus-j-plus-first request is admitted with the
remaining budget exactly when the post-increment count stays within the
limit, and rejected with 429 / remaining 0 / Retry-After 60 otherwise. -/
theorem rateLimitRun_in_window (limit : Nat) (ip : String) (t0 : Int) (times : List Int) :
    ∀ (k : Nat) (st : RLState),
      alookup st ip = some { requests := k, window := t0 } →
      (∀ t ∈ times, t0 ≤ t ∧ t - t0 ≤ 60) →
      (rateLimitRun limit ip times st).2
          = (List.range times.length).map (fun j =>
              if k + j + 1 ≤ limit then .allowed limit (limit - (k + j + 1))
              else .rejected 429 limit 0 60)
        ∧ alookup (rateLimitRun limit ip times st).1 ip
            = some { requests := k + times.length, window := t0 } := by
  induction times with
  | nil =>
    intro k st hl _
    exact ⟨rfl, by simpa using hl⟩
  | cons t ts ih =>
    intro k st hl hin
    have ht := hin t (by simp)
    have hstep : rateLimitStep limit t ip st
        = (aset st ip { requests := k + 1, window := t0 },
           if k + 1 > limit then RLOutcome.rejected 429 limit 0 60
           else RLOutcome.allowed limit (limit - (k + 1))) := by
      simp only [rateLimitStep, hl]
      rw [if_neg (show ¬(t - t0 > 60) by omega)]
      by_cases hk : k + 1 > limit
      · rw [if_pos hk, if_pos hk]
      · rw [if_neg hk, if_neg hk]
    obtain ⟨ih1, ih2⟩ := ih (k + 1) (aset st ip { requests := k + 1, window := t0 })
      (alookup_aset st ip _) (fun x hx => hin x (by simp [hx]))
    have hrun : rateLimitRun limit ip (t :: ts) st
        = ((rateLimitRun limit ip ts (aset st ip { requests := k + 1, window := t0 })).1,
           (if k + 1 > limit then RLOutcome.rejected 429 limit 0 60
            else RLOutcome.allowed limit (limit - (k + 1)))
             :: (rateLimitRun limit ip ts
                  (aset st ip { requests := k + 1, window := t0 })).2) := by
      rw [rateLimitRun, hstep]
    constructor
    · rw [hrun]
      show _ :: _ = _
      rw [ih1]
      simp only [List.length_cons]
      rw [List.range_succ_eq_map, List.map_cons, List.map_map]
      congr 1
      · simp only [Nat.add_zero]
        by_cases hk : k + 1 ≤ limit
        · rw [if_neg (by omega), if_pos hk]
        · rw [if_pos (by omega), if_neg hk]
      · apply List.map_congr_left
        intro j _
        show (if k + 1 + j + 1 ≤ limit
            then RLOutcome.allowed limit (limit - (k + 1 + j + 1))
            else RLOutcome.rejected 429 limit 0 60)
          = (if k + (j + 1) + 1 ≤ limit
            then RLOutcome.allowed limit (limit - (k + (j + 1) + 1))
            else RLOutcome.rejected 429 limit 0 60)
        have harith : k + 1 + j + 1 = k + (j + 1) + 1 := by omega
        rw [harith]
    · rw [hrun]
      show alookup (rateLimitRun limit ip ts _).1 ip = _
      rw [ih2]
      have harith : k + 1 + ts.length = k + (t :: ts).length := by
        simp [List.length_cons]
        omega
      rw [harith]

/-- Claim C4: for every client and configured limit N, the first N
requests within one fixed window are admitted with the remaining budget
reported in the headers, every further request in the same window is
rejected with HTTP 429, remaining 0 and Retry-After 60; and whenever
more than one minute has elapsed since the client's window start, the
counter and window start are reset before the increment, so the request
succeeds again. -/
theorem rate_limiter_fixed_window (limit : Nat) (ip : String) (t0 : Int)
    (times : List Int) (st : RLState)
    (hfresh : alookup st ip = none) (hpos : 0 < limit)
    (hin : ∀ t ∈ times, t0 ≤ t ∧ t - t0 ≤ 60) :
    (rateLimitRun limit ip (t0 :: times) st).2
        = (List.range (times.length + 1)).map (fun j =>
            if j + 1 ≤ limit then RLOutcome.allowed limit (limit - (j + 1))
            else RLOutcome.rejected 429 limit 0 60)
      ∧ (∀ (k : Nat) (w now : Int) (st2 : RLState),
          alookup st2 ip = some { requests := k, window := w } → now - w > 60 →
          rateLimitStep limit now ip st2
            = (aset st2 ip { requests := 1, window := now },
               RLOutcome.allowed limit (limit - 1))) := by
  constructor
  · have hstep : rateLimitStep limit t0 ip st
        = (aset st ip { requests := 1, window := t0 },
           RLOutcome.allowed limit (limit - 1)) := by
      simp only [rateLimitStep, hfresh]
      rw [if_neg (show ¬(t0 - t0 > 60) by omega), if_neg (show ¬(0 + 1 > limit) by omega)]
    obtain ⟨ih1, _⟩ := rateLimitRun_in_window limit ip t0 times 1
      (aset st ip { requests := 1, window := t0 }) (alookup_aset st ip _) hin
    have hrun : rateLimitRun limit ip (t0 :: times) st
        = ((rateLimitRun limit ip times (aset st ip { requests := 1, window := t0 })).1,
           RLOutcome.allowed limit (limit - 1)
             :: (rateLimitRun limit ip times
                  (aset st ip { requests := 1, window := t0 })).2) := by
      rw [rateLimitRun, hstep]
    rw [hrun]
    show _ :: _ = _
    rw [ih1, List.range_succ_eq_map, List.map_cons, List.map_map]
    congr 1
    · simp only [Nat.zero_add]
      rw [if_pos (show 1 ≤ limit by omega)]
    · apply List.map_congr_left
      intro j _
      show (if 1 + j + 1 ≤ limit
          then RLOutcome.allowed limit (limit - (1 + j + 1))
          else RLOutcome.rejected 429 limit 0 60)
        = (if j + 1 + 1 ≤ limit
          then RLOutcome.allowed limit (limit - (j + 1 + 1))
          else RLOutcome.rejected 429 limit 0 60)
      have harith : 1 + j + 1 = j + 1 + 1 := by omega
      rw [harith]
  · intro k w now st2 hl2 hreset
    simp only [rateLimitStep, hl2]
    rw [if_pos hreset, if_neg (show ¬(0 + 1 > limit) by omega)]

/-- Witness for C4: limit 3, four requests in one window — three are
admitted with remaining 2, 1, 0 and the fourth is a 429 with
Retry-After 60. -/
theorem rate_limiter_fixed_window_witness :
    alookup ([] : RLState) "c" = none ∧ 0 < 3
    ∧ (∀ t ∈ [(10 : Int), 20, 30], (0 : Int) ≤ t ∧ t - 0 ≤ 60)
    ∧ (rateLimitRun 3 "c" [0, 10, 20, 30] []).2
        = (List.range ([(10 : Int), 20, 30].length + 1)).map (fun j =>
            if j + 1 ≤ 3 then RLOutcome.allowed 3 (3 - (j + 1))
            else RLOutcome.rejected 429 3 0 60) :=
  ⟨rfl, by decide, by decide,
   (rate_limiter_fixed_window 3 "c" 0 [10, 20, 30] [] rfl (by decide) (by decide)).1⟩

/-- Claim C7: two sequential company creations with the identical
trimmed name — the first succeeds, the second receives the 409
COMPANY_ALREADY_EXISTS conflict from the pre-check; and whenever the
pre-check passes but the store's unique index rejects the insert with a
duplicate-key failure, the repository remaps that failure to an error
with the same code and status the pre-check would have produced, so the
user-visible outcome is the same on either detection path. -/
theorem company_name_conflict (users : List UserE) (companies : List CompanyE)
    (req1 req2 : CreateCompanyRequest) (id1 id2 : OId) (n1 n2 : Int)
    (hsame : trimSpace req2.name = trimSpace req1.name)
    (hne : trimSpace req1.name ≠ "")
    (hnew : ∀ c ∈ companies,
      c.name ≠ trimSpace req1.name ∧ c.name.toLower ≠ (trimSpace req1.name).toLower)
    (husers : ∀ i ∈ req1.user, users.any (fun u => u.id == i) = true) :
    CreateCompany users companies req1 id1 n1
        = .ok (companies ++ [insertedCompanyOf req1 id1 n1])
      ∧ CreateCompany users (companies ++ [insertedCompanyOf req1 id1 n1]) req2 id2 n2
          = .error ErrCompanyAlreadyExists
      ∧ (∀ (cs : List CompanyE) (c : CompanyE),
          cs.any (fun x => x.name == c.name) = true →
          companyRepoCreate cs c = .error companyDupKeyError)
      ∧ companyDupKeyError.code = ErrCompanyAlreadyExists.code
      ∧ companyDupKeyError.status = ErrCompanyAlreadyExists.status := by
  have hne' : ¬((trimSpace req1.name == "") = true) := by simp [hne]
  have hgbn : companyRepoGetByName companies (trimSpace req1.name) = none := by
    unfold companyRepoGetByName
    have h1 : companies.find? (fun c => c.name == trimSpace req1.name) = none :=
      List.find?_eq_none.mpr (fun c hc => by simp [(hnew c hc).1])
    have h2 : companies.find? (fun c => c.name.toLower == (trimSpace req1.name).toLower) = none :=
      List.find?_eq_none.mpr (fun c hc => by simp [(hnew c hc).2])
    rw [h1, h2]
  have hall : req1.user.all (fun i => users.any (fun u => u.id == i)) = true :=
    List.all_eq_true.mpr husers
  have hany : ¬(companies.any (fun x => x.name == trimSpace req1.name) = true) := by
    rw [List.any_eq_true]
    rintro ⟨c, hc, hcn⟩
    exact (hnew c hc).1 (by simpa using hcn)
  refine ⟨?_, ?_, ?_, rfl, rfl⟩
  · simp only [CreateCompany]
    rw [if_neg hne', hgbn, if_pos hall]
    simp only [companyRepoCreate]
    rw [if_neg (show ¬((companies.any fun x =>
      x.name == (insertedCompanyOf req1 id1 n1).name) = true) from hany)]
  · simp only [CreateCompany]
    rw [hsame, if_neg hne']
    have hgbn2 : companyRepoGetByName
        (companies ++ [insertedCompanyOf req1 id1 n1]) (trimSpace req1.name)
        = some (insertedCompanyOf req1 id1 n1) := by
      unfold companyRepoGetByName
      rw [List.find?_append]
      have h1 : companies.find? (fun c => c.name == trimSpace req1.name) = none :=
        List.find?_eq_none.mpr (fun c hc => by simp [(hnew c hc).1])
      rw [h1]
      simp [List.find?_cons, insertedCompanyOf]
    rw [hgbn2]
  · intro cs c hdup
    simp only [companyRepoCreate]
    rw [if_pos hdup]

/-- Witness for C7: creating " Initech " twice — success, then the 409
conflict. -/
theorem company_name_conflict_witness :
    trimSpace sampleCompanyReq.name ≠ ""
    ∧ CreateCompany [sampleUser] [] sampleCompanyReq 23 200
        = .ok ([] ++ [insertedCompanyOf sampleCompanyReq 23 200])
    ∧ CreateCompany [sampleUser] ([] ++ [insertedCompanyOf sampleCompanyReq 23 200])
        sampleCompanyReq 24 201 = .error ErrCompanyAlreadyExists :=
  ⟨by decide,
   (company_name_conflict [sampleUser] [] sampleCompanyReq sampleCompanyReq 23 24 200 201
     rfl (by decide) (by decide) (by decide)).1,
   (company_name_conflict [sampleUser] [] sampleCompanyReq sampleCompanyReq 23 24 200 201
     rfl (by decide) (by decide) (by decide)).2.1⟩

/-- With pairwise-distinct keys, `find?` by the key of a member returns
exactly that member. -/
theorem find?_key_of_mem {α : Type} (key : α → OId) (l : List α) (x : α) (i : OId)
    (hn : (l.map key).Nodup) (hx : x ∈ l) (hk : key x = i) :
    l.find? (fun a => key a == i) = some x := by
  induction l with
  | nil => cases hx
  | cons a t ih =>
    simp only [List.map_cons, List.nodup_cons] at hn
    by_cases ha : (key a == i) = true
    · simp only [List.find?_cons, ha]
      rcases List.mem_cons.mp hx with hxa | hxt
      · rw [hxa]
      · exfalso
        apply hn.1
        rw [List.mem_map]
        refine ⟨x, hxt, ?_⟩
        rw [hk]
        exact (by simpa using ha : key a = i).symm
    · have haf : (key a == i) = false := by
        simp only [Bool.not_eq_true] at ha; exact ha
      simp only [List.find?_cons, haf]
      apply ih hn.2
      rcases List.mem_cons.mp hx with hxa | hxt
      · exact absurd (by rw [hxa] at hk; simp [hk]) ha
      · exact hxt

/-- Claim C6: report create and update persist only the four raw
references (company, report type, creator and user-access ids — never
an embedded shape), and each write is immediately followed by a
read-back through the population pipeline, so the caller of
CreateReport receives the fully joined representation of the post-write
state, and reportMongoRepository.Update returns the fully joined
representation of the updated report (read-your-writes within the
request). -/
theorem report_write_readback (db : DB) (req : CreateReportRequest) (newId : OId) (now : Int)
    (hwf : DBWF db) (hfresh : ∀ x ∈ db.reports, x.id ≠ newId)
    (hnodup : (db.reports.map (fun x => x.id)).Nodup) :
    CreateReport db req newId now
        = (dbAfterCreate db req newId now,
           .ok (ToReportResponse (decodePopulated
             (populatedDocSpec (dbAfterCreate db req newId now) (newReportOf req newId now)))))
      ∧ getF (encReport (newReportOf req newId now)) "company" = some (.oid req.company)
      ∧ getF (encReport (newReportOf req newId now)) "reportType" = some (.oid req.reportType)
      ∧ getF (encReport (newReportOf req newId now)) "createdBy" = some (.oid req.createBy)
      ∧ getF (encReport (newReportOf req newId now)) "userAccess"
          = some (.arr (req.userAccess.map BVal.oid))
      ∧ (∀ (rid : OId) (r x : ReportE) (now2 : Int),
          x ∈ db.reports → x.id = rid →
          reportRepoUpdate db rid r now2
            = (dbAfterUpdate db rid r now2,
               .ok (populatedDocSpec (dbAfterUpdate db rid r now2)
                 (updatedReportOf x r now2)))) := by
  have hwfc : DBWF (dbAfterCreate db req newId now) := hwf
  refine ⟨?_, rfl, rfl, ?_, ?_, ?_⟩
  · have hfilter : (dbAfterCreate db req newId now).reports.filter
        (reportMatches (.byId newId)) = [newReportOf req newId now] := by
      show (db.reports ++ [newReportOf req newId now]).filter
        (reportMatches (.byId newId)) = [newReportOf req newId now]
      rw [List.filter_append]
      have h0 : db.reports.filter (reportMatches (.byId newId)) = [] := by
        apply List.filter_eq_nil_iff.mpr
        intro x hx
        show ¬(x.id == newId) = true
        simp [hfresh x hx]
      have h1 : List.filter (reportMatches (.byId newId)) [newReportOf req newId now]
          = [newReportOf req newId now] := by
        rw [List.filter_cons]
        rw [if_pos (show (reportMatches (.byId newId) (newReportOf req newId now)) = true
          by show ((newReportOf req newId now).id == newId) = true; simp [newReportOf])]
        rfl
      rw [h0, h1]
      rfl
    have hget : reportRepoGetByID (dbAfterCreate db req newId now) newId
        = .ok (populatedDocSpec (dbAfterCreate db req newId now)
            (newReportOf req newId now)) := by
      rw [reportRepoGetByID, matched_docs, optimized_pipeline_spec _ _ hwfc, hfilter]
      rfl
    rw [CreateReport, hget]
    rfl
  · cases hc : req.currency <;> simp only [encReport, newReportOf, hc] <;> rfl
  · cases hc : req.currency <;> simp only [encReport, newReportOf, hc] <;> rfl
  · intro rid r x now2 hx hxid
    have hany : (db.reports.any (fun y => y.id == rid)) = true :=
      List.any_eq_true.mpr ⟨x, hx, by simp [hxid]⟩
    have hwfu : DBWF (dbAfterUpdate db rid r now2) := hwf
    have hfilter : (dbAfterUpdate db rid r now2).reports.filter
        (reportMatches (.byId rid)) = [updatedReportOf x r now2] := by
      show (db.reports.map (fun y =>
          if y.id == rid then updatedReportOf y r now2 else y)).filter
        (reportMatches (.byId rid)) = [updatedReportOf x r now2]
      rw [List.filter_map]
      have hcongr : db.reports.filter ((reportMatches (.byId rid)) ∘ (fun y =>
          if y.id == rid then updatedReportOf y r now2 else y))
          = db.reports.filter (fun y => y.id == rid) := by
        apply List.filter_congr
        intro y _
        show (reportMatches (.byId rid) (if y.id == rid then updatedReportOf y r now2 else y))
          = (y.id == rid)
        by_cases hy : (y.id == rid) = true
        · rw [if_pos hy]
          show ((updatedReportOf y r now2).id == rid) = (y.id == rid)
          rw [hy]
          show (y.id == rid) = true
          exact hy
        · rw [if_neg hy]
          rfl
      rw [hcongr, filter_key_eq_find (fun y => y.id) rid db.reports hnodup,
        find?_key_of_mem (fun y => y.id) db.reports x rid hnodup hx hxid]
      simp only [Option.toList, List.map_cons, List.map_nil]
      rw [if_pos (by simp [hxid])]
    have hget : reportRepoGetByID (dbAfterUpdate db rid r now2) rid
        = .ok (populatedDocSpec (dbAfterUpdate db rid r now2)
            (updatedReportOf x r now2)) := by
      rw [reportRepoGetByID, matched_docs, optimized_pipeline_spec _ _ hwfu, hfilter]
      rfl
    rw [reportRepoUpdate, if_pos hany]
    show (dbAfterUpdate db rid r now2, reportRepoGetByID (dbAfterUpdate db rid r now2) rid) = _
    rw [hget]

/-- Witness for C6 at a concrete database and create request. -/
theorem report_write_readback_witness :
    DBWF sampleDB
    ∧ (∀ x ∈ sampleDB.reports, x.id ≠ 42)
    ∧ (sampleDB.reports.map (fun x => x.id)).Nodup
    ∧ CreateReport sampleDB sampleCreateReq 42 300
        = (dbAfterCreate sampleDB sampleCreateReq 42 300,
           .ok (ToReportResponse (decodePopulated
             (populatedDocSpec (dbAfterCreate sampleDB sampleCreateReq 42 300)
               (newReportOf sampleCreateReq 42 300)))))
    ∧ getF (encReport (newReportOf sampleCreateReq 42 300)) "company"
        = some (.oid sampleCreateReq.company) :=
  ⟨⟨by decide, by decide, by decide⟩, by decide, by decide,
   (report_write_readback sampleDB sampleCreateReq 42 300
     ⟨by decide, by decide, by decide⟩ (by decide) (by decide)).1,
   (report_write_readback sampleDB sampleCreateReq 42 300
     ⟨by decide, by decide, by decide⟩ (by decide) (by decide)).2.1⟩
